import Mathlib

/-!
Verification development for the Freestyle UUID Resolver browser extension.

The embedding models the core of the repository:
- `src/content/uem-api-client.js` — class `UEMAPIClient` (resolution cache and
  resolver client),
- `src/content/content-script-simple.js` — class `UUIDDetector` (scanner and
  entity-type classifier) and class `UIEnhancer` (annotator and statistics),
- `src/content/content-script.js` — the orchestrating content script
  (`settings.enabled` gate).

JavaScript strings are Lean `String`s, `Date.now()` timestamps are `Nat`
milliseconds, a JS `Map` is an insertion-ordered association list, and the
fallible background call `chrome.runtime.sendMessage` is an
`Except String ResolvedEntity` value supplied by the caller (the `.error`
branch covers both a rejected promise and a `{success:false}` response,
which the source converts into a thrown-then-caught `Error`).
-/

namespace UUIDResolver

/-! ## JavaScript string primitives -/

/-- Tests whether `needle` occurs at the head of `hay` (chars compared one by one). -/
def headEq : List Char → List Char → Bool
  | [], _ => true
  | _ :: _, [] => false
  | a :: as, b :: bs => a == b && headEq as bs

/-- Tests whether `needle` occurs somewhere inside `hay` (models JS `hay.includes(needle)`,
which is naive substring containment). -/
def listHasSub (needle : List Char) : List Char → Bool
  | [] => needle.isEmpty
  | b :: bs => headEq needle (b :: bs) || listHasSub needle bs

/-- Models JS `hay.includes(needle)`. -/
def jsIncludes (hay needle : String) : Bool :=
  listHasSub needle.data hay.data

/-- ASCII lowercasing of one character (the source's inputs are ASCII, where
JS `toLowerCase` maps exactly `A`–`Z` to `a`–`z`). -/
def charToLower (c : Char) : Char :=
  if 'A' ≤ c && c ≤ 'Z' then Char.ofNat (c.toNat + 32) else c

/-- Models JS `s.toLowerCase()`. -/
def jsToLower (s : String) : String :=
  String.mk (s.data.map charToLower)

/-- JS whitespace as far as `trim` is concerned (the usual ASCII cases). -/
def isJsSpace (c : Char) : Bool :=
  c == ' ' || c == '\t' || c == '\n' || c == '\r' ||
  c == Char.ofNat 0x0b || c == Char.ofNat 0x0c

/-- Models JS `s.trim()`. -/
def jsTrim (s : String) : String :=
  String.mk (((s.data.dropWhile isJsSpace).reverse.dropWhile isJsSpace).reverse)

/-! ## The UUID lexical pattern

The source regex is `/[0-9a-f]{8}-[0-9a-f]{4}-[0-9a-f]{4}-[0-9a-f]{4}-[0-9a-f]{12}/gi`
(`content-script-simple.js:100`).  The `i` flag makes `[0-9a-f]` also match
`A`–`F`; matching scans left to right and resumes after each 36-character
match, which is what `String.match` with the `g` flag produces. -/

/-- A hex digit under the regex `i` flag: `0-9`, `a-f`, or `A-F`. -/
def isHexChar (c : Char) : Bool :=
  ('0' ≤ c && c ≤ '9') || ('a' ≤ c && c ≤ 'f') || ('A' ≤ c && c ≤ 'F')

/-- Consume exactly `n` hex chars, returning them and the remainder. -/
def takeHex : Nat → List Char → Option (List Char × List Char)
  | 0, cs => some ([], cs)
  | _ + 1, [] => none
  | n + 1, c :: cs =>
    if isHexChar c then
      match takeHex n cs with
      | some (m, r) => some (c :: m, r)
      | none => none
    else none

/-- Consume a literal hyphen. -/
def takeDash : List Char → Option (List Char)
  | '-' :: cs => some cs
  | _ => none

/-- Try to match the 36-character UUID pattern at the head of `cs`,
returning the matched characters verbatim (no case normalization). -/
def matchUuidAt (cs : List Char) : Option (List Char) := do
  let (a, r) ← takeHex 8 cs
  let r ← takeDash r
  let (b, r) ← takeHex 4 r
  let r ← takeDash r
  let (c, r) ← takeHex 4 r
  let r ← takeDash r
  let (d, r) ← takeHex 4 r
  let r ← takeDash r
  let (e, _) ← takeHex 12 r
  pure (a ++ '-' :: b ++ '-' :: c ++ '-' :: d ++ '-' :: e)

/-- All regex matches in left-to-right order.  A successful match always has
length 36, so the regex engine resumes 36 characters further on; on failure it
retries from the next character.  The `fuel` argument only bounds the number of
steps; each step consumes at least one character, so `fuel = cs.length`
(as passed by `jsUuidMatches`) never runs out. -/
def scanChars : Nat → List Char → List String
  | 0, _ => []
  | _ + 1, [] => []
  | fuel + 1, c :: rest =>
    match matchUuidAt (c :: rest) with
    | some m => String.mk m :: scanChars fuel ((c :: rest).drop 36)
    | none => scanChars fuel rest

/-- Models `s.match(uuidRegex)` for the global, case-insensitive UUID regex.
JS returns `null` for no match where we return `[]`; the source only ever
iterates over the matches (`matches.forEach`), so the two agree. -/
def jsUuidMatches (s : String) : List String :=
  scanChars s.data.length s.data

/-! ## UEMAPIClient (`src/content/uem-api-client.js`)

State: `this.cache` (a `Map` from `` `${uuid}-${entityType}` `` keys to
`{data, timestamp}` entries) and `this.cacheExpiry = 5 * 60 * 1000`. -/

/-- The `ResolvedEntity` shape produced by the resolver.  A successful
background response carries such a record; the failure branch of
`resolveUUID` synthesizes one with `error` set. -/
structure ResolvedEntity where
  uuid : String
  name : String
  type : String
  error : Option String
deriving Repr, DecidableEq

/-- One cache entry: `{data, timestamp}` as stored by `setCachedResult`. -/
structure CacheEntry where
  data : ResolvedEntity
  timestamp : Nat
deriving Repr, DecidableEq

/-- JS `Map.get`. -/
def mapGet (m : List (String × CacheEntry)) (k : String) : Option CacheEntry :=
  match m.find? (fun p => p.1 == k) with
  | some p => some p.2
  | none => none

/-- JS `Map.set`: overwrite in place if the key exists, else append.  A JS
`Map` never holds a key twice, so overwriting the first hit is exact. -/
def mapSet : List (String × CacheEntry) → String → CacheEntry →
    List (String × CacheEntry)
  | [], k, v => [(k, v)]
  | (k', v') :: m, k, v =>
    if k' == k then (k, v) :: m else (k', v') :: mapSet m k v

/-- The `UEMAPIClient` instance state. -/
structure UEMAPIClient where
  cache : List (String × CacheEntry)
  cacheExpiry : Nat
deriving Repr, DecidableEq

/-- The constructor: empty cache, `cacheExpiry = 5 * 60 * 1000` (5 minutes). -/
def clientInit : UEMAPIClient :=
  { cache := [], cacheExpiry := 5 * 60 * 1000 }

/-- Source `getCachedResult(key)`: return the cached data if present and
`Date.now() - cached.timestamp < this.cacheExpiry`, else `null`. -/
def getCachedResult (c : UEMAPIClient) (key : String) (now : Nat) :
    Option ResolvedEntity :=
  match mapGet c.cache key with
  | some cached =>
    if now - cached.timestamp < c.cacheExpiry then some cached.data else none
  | none => none

/-- Source `setCachedResult(key, data)`: store the data with the current timestamp. -/
def setCachedResult (c : UEMAPIClient) (key : String) (data : ResolvedEntity)
    (now : Nat) : UEMAPIClient :=
  { c with cache := mapSet c.cache key ⟨data, now⟩ }

/-- Source `clearCache()`: clears the whole cache map. -/
def clearCache (c : UEMAPIClient) : UEMAPIClient :=
  { c with cache := [] }

/-- The cache key `` `${uuid}-${entityType}` ``. -/
def cacheKey (uuid entityType : String) : String :=
  uuid ++ "-" ++ entityType

/-- Result of one `resolveUUID` call: the returned entity, the client state
afterwards, and whether a message was sent to the background authority. -/
structure ResolveOutcome where
  result : ResolvedEntity
  client : UEMAPIClient
  networkCalled : Bool
deriving Repr, DecidableEq

/-- Source `resolveUUID(uuid, entityType)`.  Checks the cache first; on a miss it
delegates to the background script (`response`).  A successful response is
cached and returned; any failure (rejected message or `success:false`) is
caught and converted into a failure-shaped `ResolvedEntity` whose `name` is
`` `Resolution Failed: ${error.message}` `` and whose `error` field is set.
The failure result is returned without being cached. -/
def resolveUUID (c : UEMAPIClient) (now : Nat) (uuid entityType : String)
    (response : Except String ResolvedEntity) : ResolveOutcome :=
  let key := cacheKey uuid entityType
  match getCachedResult c key now with
  | some cached => ⟨cached, c, false⟩
  | none =>
    match response with
    | .ok data => ⟨data, setCachedResult c key data now, true⟩
    | .error e =>
      ⟨{ uuid := uuid, name := "Resolution Failed: " ++ e,
         type := entityType, error := some e }, c, true⟩

/-- Count a call's network requests (0 or 1). -/
def netCount (r : ResolveOutcome) : Nat :=
  if r.networkCalled then 1 else 0

/-! ## Entity type classifier (`src/content/content-script-simple.js`)

`inferEntityTypeFromLabel` (lines 925–953), `inferEntityTypeFromElement`
(lines 865–881), `inferEntityTypeFromSurroundingElements` (lines 283–326) and
`inferEntityTypeFromPageContext` (lines 532–556).  All keyword checks in the
source use JS `String.includes`, i.e. naive substring containment on the
lowercased text. -/

/-- Source `inferEntityTypeFromLabel(labelText)`: lowercase and trim, try the
`directMatches` table in insertion order, then the fallback `includes`
chain, defaulting to `application`. -/
def inferEntityTypeFromLabel (labelText : String) : String :=
  let text := jsTrim (jsToLower labelText)
  if jsIncludes text "organization group uuid" then "organization-group"
  else if jsIncludes text "product uuid" then "product"
  else if jsIncludes text "script uuid" then "script"
  else if jsIncludes text "profile uuid" then "profile"
  else if jsIncludes text "tag uuid" then "tag"
  else if jsIncludes text "app uuid" then "application"
  else if jsIncludes text "application uuid" then "application"
  else if jsIncludes text "organization" || jsIncludes text "org group" then
    "organization-group"
  else if jsIncludes text "product" then "product"
  else if jsIncludes text "script" then "script"
  else if jsIncludes text "profile" then "profile"
  else if jsIncludes text "tag" then "tag"
  else "application"

/-- The seven `directMatches` patterns of `inferEntityTypeFromLabel`, as one
test (used to state theorems about the fallback chain). -/
def labelDirectHit (text : String) : Bool :=
  jsIncludes text "organization group uuid" || jsIncludes text "product uuid" ||
  jsIncludes text "script uuid" || jsIncludes text "profile uuid" ||
  jsIncludes text "tag uuid" || jsIncludes text "app uuid" ||
  jsIncludes text "application uuid"

/-- Source `inferEntityTypeFromElement(element)`: the associated label is resolved by
`findAssociatedLabel` (a DOM search; modeled as the element's optional label
text).  With a label, classify by label text; a label classification of
`application` falls through to the default, which is also `application`.
Without a label the default `application` is returned directly — this
function consults neither ancestors nor the page. -/
def inferEntityTypeFromElement (label : Option String) : String :=
  match label with
  | some labelText =>
    let labelType := inferEntityTypeFromLabel labelText
    if labelType != "application" then labelType else "application"
  | none => "application"

/-- The page-level evidence read by `inferEntityTypeFromPageContext`:
`document.body.textContent`, `document.title`, `window.location.href`. -/
structure PageCtx where
  bodyText : String
  title : String
  url : String
deriving Repr, DecidableEq

/-- Source `inferEntityTypeFromPageContext(uuid)`: keyword checks over lowercased
body text, title and URL, in the order tag, profile, script (also URL
`workflow`), product, organization; default `application`. -/
def inferEntityTypeFromPageContext (page : PageCtx) : String :=
  let pageText := jsToLower page.bodyText
  let pageTitle := jsToLower page.title
  let url := jsToLower page.url
  if jsIncludes pageText "tag" || jsIncludes pageTitle "tag" ||
     jsIncludes url "tag" then "tag"
  else if jsIncludes pageText "profile" || jsIncludes pageTitle "profile" ||
     jsIncludes url "profile" then "profile"
  else if jsIncludes pageText "script" || jsIncludes pageTitle "script" ||
     jsIncludes url "script" || jsIncludes url "workflow" then "script"
  else if jsIncludes pageText "product" || jsIncludes pageTitle "product" ||
     jsIncludes url "product" then "product"
  else if jsIncludes pageText "organization" ||
     jsIncludes pageTitle "organization" ||
     jsIncludes url "organization" then "organization-group"
  else "application"

/-- One ancestor level visited by `inferEntityTypeFromSurroundingElements`:
the label texts found by `querySelectorAll('label')` on that element, and the
element's own `textContent`. -/
structure AncestorLevel where
  labels : List String
  text : String
deriving Repr, DecidableEq

/-- The per-label keyword check of the `for (const label of labels)` loop
(lines 293–303): lowercased and trimmed, checked in the order tag, profile,
script, product, organization/org group, application/app. -/
def labelKeywordType (labelText : String) : Option String :=
  let lt := jsTrim (jsToLower labelText)
  if jsIncludes lt "tag" then some "tag"
  else if jsIncludes lt "profile" then some "profile"
  else if jsIncludes lt "script" then some "script"
  else if jsIncludes lt "product" then some "product"
  else if jsIncludes lt "organization" || jsIncludes lt "org group" then
    some "organization-group"
  else if jsIncludes lt "application" || jsIncludes lt "app" then
    some "application"
  else none

/-- First label in the level whose keyword check returns a type. -/
def firstLabelType : List String → Option String
  | [] => none
  | l :: ls =>
    match labelKeywordType l with
    | some t => some t
    | none => firstLabelType ls

/-- JS `hay.indexOf(needle)` (first index or `-1`). -/
def listIndexOfFrom (needle : List Char) : List Char → Nat → Option Nat
  | [], i => if needle.isEmpty then some i else none
  | b :: bs, i =>
    if headEq needle (b :: bs) then some i else listIndexOfFrom needle bs (i + 1)

/-- JS `hay.indexOf(needle)`. -/
def jsIndexOf (hay needle : String) : Int :=
  match listIndexOfFrom needle.data hay.data 0 with
  | some n => (n : Int)
  | none => -1

/-- JS `s.substring(a, b)`: clamp both arguments to `[0, length]`, swap if
out of order, return the chars in between. -/
def jsSubstring (s : String) (a b : Int) : String :=
  let len : Int := (s.data.length : Int)
  let a' := ((max 0 (min a len)).toNat)
  let b' := ((max 0 (min b len)).toNat)
  let lo := min a' b'
  let hi := max a' b'
  String.mk ((s.data.drop lo).take (hi - lo))

/-- The keyword check applied to the context-text snippet (lines 311–315):
tag, profile, script, product, organization/org group — no application
check at this site. -/
def snippetKeywordType (snippet : String) : Option String :=
  if jsIncludes snippet "tag" then some "tag"
  else if jsIncludes snippet "profile" then some "profile"
  else if jsIncludes snippet "script" then some "script"
  else if jsIncludes snippet "product" then some "product"
  else if jsIncludes snippet "organization" || jsIncludes snippet "org group"
    then some "organization-group"
  else none

/-- The snippet check for one ancestor level: lowercase the element text,
locate the lowercased uuid (`indexOf`, `-1` if absent), and test the
`substring(max(0, idx-50), idx+100)` window. -/
def levelSnippetType (lvl : AncestorLevel) (uuid : String) : Option String :=
  let elementText := jsToLower lvl.text
  let idx := jsIndexOf elementText (jsToLower uuid)
  snippetKeywordType (jsSubstring elementText (max 0 (idx - 50)) (idx + 100))

/-- The `while (currentElement && depth < 10)` walk: labels first, then the
snippet of the element's own text, else move up. When the walk ends (chain
exhausted or depth cap), fall back to the page context. -/
def surroundingWalk (uuid : String) (page : PageCtx) :
    List AncestorLevel → String
  | [] => inferEntityTypeFromPageContext page
  | lvl :: rest =>
    match firstLabelType lvl.labels with
    | some t => t
    | none =>
      match levelSnippetType lvl uuid with
      | some t => t
      | none => surroundingWalk uuid page rest

/-- Source `inferEntityTypeFromSurroundingElements(element, uuid)`: walk at most 10
ancestor levels, then fall back to `inferEntityTypeFromPageContext`. -/
def inferEntityTypeFromSurroundingElements (levels : List AncestorLevel)
    (uuid : String) (page : PageCtx) : String :=
  surroundingWalk uuid page (levels.take 10)

/-! ## UUID scanner (`UUIDDetector.scanInputElements`, lines 561–631)

An input element is modeled by the data the scan pass and the later
annotation read from it: its identity; the effective value string
(`element.value`, or for an empty readonly input the
`value`/`data-value`/text attribute fallback chain — one string either way);
the DOM-ancestry predicates `shouldSkipElement` and
`isInValidActionContext` (selector matches, modeled as precomputed fields);
the container `findExistingResolution` scopes its search to
(`closest('.field-container, .clr-input-wrapper, .lookup-variable-input')
|| parent`); the container `insertAfterTextNode` targets on its input-field
path (`angularInputWrapper || formFieldContainer || connectorCard ||
inputElement.parentElement` — possibly a different node); `inInput`, the
condition `textNode.closest('input')` selecting that path (when it holds,
`applyContainerAwareness` has also added the `in-input-field` class, since
`input` is in its selector list); `angularWrap`, the overlay sub-path
condition `angularInputWrapper ||
inputElement.classList.contains('lookup-variable-input')`; and the
associated label text as found by `findAssociatedLabel`. -/

structure InputEl where
  elemId : Nat
  value : String
  skip : Bool
  validCtx : Bool
  containerId : Nat
  targetCid : Nat
  inInput : Bool
  angularWrap : Bool
  label : Option String
deriving Repr, DecidableEq

/-- A scanner emission: `{uuid, element, entityType, context, source}` with
the element identity split into the element id (used by the annotator's
`processedElements` WeakSet) and the element's DOM-placement data the
annotator derives from it (scoped-search container, input-path insertion
target, path flags). -/
structure UuidOccurrence where
  uuid : String
  elemId : Nat
  containerId : Nat
  targetCid : Nat
  inInput : Bool
  angularWrap : Bool
  entityType : String
deriving Repr, DecidableEq

/-- The `matches.forEach(uuid => ...)` loop body of `scanInputElements`: a
match already in `this.detectedUUIDs` is dropped; otherwise it is added to
the set (modeled as a list) and emitted with
`entityType = inferEntityTypeFromElement(element)`. -/
def addMatches (e : InputEl) (detected : List String) :
    List String → List UuidOccurrence × List String
  | [] => ([], detected)
  | uuid :: ms =>
    if detected.contains uuid then addMatches e detected ms
    else
      let r := addMatches e (uuid :: detected) ms
      ({ uuid := uuid, elemId := e.elemId, containerId := e.containerId,
         targetCid := e.targetCid, inInput := e.inInput,
         angularWrap := e.angularWrap,
         entityType := inferEntityTypeFromElement e.label } :: r.1, r.2)

/-- Source `scanInputElements(foundUUIDs)` over the page's input elements: skip
elements in navigation/list context, skip elements outside a valid action
context, then run the UUID regex over the element's value and process the
matches.  Takes and returns the `this.detectedUUIDs` set, which persists
across scans of one detector instance. -/
def scanInputElements (detected : List String) :
    List InputEl → List UuidOccurrence × List String
  | [] => ([], detected)
  | e :: es =>
    if e.skip || !e.validCtx then scanInputElements detected es
    else
      let r1 := addMatches e detected (jsUuidMatches e.value)
      let r2 := scanInputElements r1.2 es
      (r1.1 ++ r2.1, r2.2)

/-! ## UI annotator (`UIEnhancer`, `content-script-simple.js` lines 2256–2832)

The DOM fragment relevant to annotation is modeled as a list of containers
(the candidate scoped-search and insertion-target nodes) plus the elements
the extension reparents under `document.body`.  Each container holds the
host page's original text nodes, its CSS `position` value (the input path
mutates it), the `.uuid-resolver-*` marker spans inside it, and the number
of `.uuid-resolver-angular-overlay` wrapper divs inside it.  A marker's
`.uuid-resolver-tooltip` child holds a `.tooltip-uuid` div rendering
`` UUID: <resolvedData.uuid> ``; the input-field path of
`insertAfterTextNode` reparents that tooltip to `document.body`, after which
the marker has no `.tooltip-uuid` descendant (`tooltipAttached = false`).
The transient loading indicator inserted by `showLoadingIndicator` is
removed again by `removeLoadingIndicators` at the start of
`injectResolvedName`, so it does not appear in the model. -/

structure Marker where
  uuid : String
  cls : String
  tooltipAttached : Bool
deriving Repr, DecidableEq

structure Container where
  cid : Nat
  textNodes : List String
  stylePos : String
  markers : List Marker
  overlays : Nat
deriving Repr, DecidableEq

/-- The document: containers, and the uuids of `.uuid-resolver-tooltip`
elements that were reparented under `document.body`. -/
structure Page where
  containers : List Container
  bodyTooltipUuids : List String
deriving Repr, DecidableEq

/-- Source `findExistingResolution(textNode, uuid)` (js:2587–2603): search
only the occurrence's scoped container — not the whole document — for a
`.uuid-resolver-info` marker that still has a `.tooltip-uuid` descendant
whose text `` UUID: <...> `` includes the uuid.  A marker whose tooltip was
reparented to `document.body` has no such descendant and is never
recognized. -/
def findExistingResolution (page : Page) (containerId : Nat) (uuid : String) :
    Bool :=
  match page.containers.find? (fun c => c.cid == containerId) with
  | some c =>
    c.markers.any (fun m =>
      m.cls == "uuid-resolver-info" && m.tooltipAttached
        && jsIncludes ("UUID: " ++ m.uuid) uuid)
  | none => false

/-- The input-field update `insertAfterTextNode` applies to the target
container (js:2510–2560): force its position to `relative` when it was
`static`, append the marker with its tooltip gone (the tooltip is reparented
to `document.body` on both input sub-paths), and on the Angular sub-path
also add a `.uuid-resolver-angular-overlay` wrapper div. -/
def inputInsertUpd (tc : Nat) (wrap : Bool) (m : Marker) (c : Container) :
    Container :=
  if c.cid == tc then
    { c with
      stylePos := if c.stylePos == "static" then "relative" else c.stylePos,
      markers := c.markers ++ [{ m with tooltipAttached := false }],
      overlays := c.overlays + (if wrap then 1 else 0) }
  else c

/-- The inline update of `insertAfterTextNode`'s else-branch (js:2569):
append the marker, tooltip attached, next to the text node inside the
scoped container. -/
def appendMarkerUpd (cid : Nat) (m : Marker) (c : Container) : Container :=
  if c.cid == cid then { c with markers := c.markers ++ [m] } else c

/-- Source `insertAfterTextNode(textNode, elementToInsert)` (js:2488–2571).
For an occurrence inside an input field (`textNode.closest('input')`
non-null, which also guarantees the `in-input-field` class): apply the
input-field update to the target container and reparent the marker's
tooltip to `document.body`.  Otherwise insert the marker inline after the
text node, inside the scoped container, tooltip still attached. -/
def insertAfterTextNode (page : Page) (occ : UuidOccurrence) (m : Marker) :
    Page :=
  if occ.inInput then
    { containers :=
        page.containers.map (inputInsertUpd occ.targetCid occ.angularWrap m),
      bodyTooltipUuids := page.bodyTooltipUuids ++ [m.uuid] }
  else
    { page with containers :=
        page.containers.map (appendMarkerUpd occ.containerId m) }

/-- Source `injectResolvedName(uuidData, resolvedData)`: skip if the scoped
search recognizes a marker for the uuid, else build the
`.uuid-resolver-info` marker (tooltip attached) and insert it via
`insertAfterTextNode`. -/
def injectResolvedName (page : Page) (occ : UuidOccurrence)
    (data : ResolvedEntity) : Page :=
  if findExistingResolution page occ.containerId occ.uuid then page
  else insertAfterTextNode page occ ⟨data.uuid, "uuid-resolver-info", true⟩

/-- JS `Map.set` on a generic insertion-ordered association list (a JS `Map`
never holds a key twice, so overwriting the first hit is exact). -/
def jsMapSet {α : Type} : List (String × α) → String → α → List (String × α)
  | [], k, v => [(k, v)]
  | (k', v') :: m, k, v =>
    if k' == k then (k, v) :: m else (k', v') :: jsMapSet m k v

/-- The `UIEnhancer` instance state: `this.processedElements` (a WeakSet of
DOM elements, by identity) and `this.resolvedUUIDs` (a Map from uuid to the
last resolved data). -/
structure UIEnhancer where
  processedElements : List Nat
  resolvedUUIDs : List (String × ResolvedEntity)
deriving Repr, DecidableEq

/-- The `UIEnhancer` constructor state. -/
def enhancerInit : UIEnhancer :=
  { processedElements := [], resolvedUUIDs := [] }

/-- One iteration of the `enhanceUI` loop for a DOM-element occurrence (the
URL-occurrence branch, which has no element, is outside this model):
skip elements already processed; otherwise resolve — `resolver` is the
value the awaited `apiClient.resolveUUID` call produced, and the returned
list logs the `(uuid, entityType)` pairs resolution was invoked for —
then inject the marker, record the element as processed and store the result
in `resolvedUUIDs`. -/
def enhanceStep (resolver : String → String → ResolvedEntity)
    (st : UIEnhancer) (page : Page) (occ : UuidOccurrence) :
    UIEnhancer × Page × List (String × String) :=
  if st.processedElements.contains occ.elemId then (st, page, [])
  else
    let data := resolver occ.uuid occ.entityType
    let page1 := injectResolvedName page occ data
    ({ processedElements := st.processedElements ++ [occ.elemId],
       resolvedUUIDs := jsMapSet st.resolvedUUIDs occ.uuid data },
     page1, [(occ.uuid, occ.entityType)])

/-- Source `enhanceUI(detectedUUIDs)`: the loop over occurrences. -/
def enhanceUI (resolver : String → String → ResolvedEntity)
    (st : UIEnhancer) (page : Page) :
    List UuidOccurrence → UIEnhancer × Page × List (String × String)
  | [] => (st, page, [])
  | occ :: rest =>
    let r1 := enhanceStep resolver st page occ
    let r2 := enhanceUI resolver r1.1 r1.2.1 rest
    (r2.1, r2.2.1, r1.2.2 ++ r2.2.2)

/-- The three selector classes removed by `removeAllEnhancements`. -/
def enhancementClasses : List String :=
  ["uuid-resolver-info", "uuid-resolver-loading", "uuid-resolver-error"]

/-- Source `removeAllEnhancements()` (js:2608–2619): remove every element
carrying one of the three enhancement classes (a global
`document.querySelectorAll`), and reset `processedElements` to a fresh
WeakSet.  `resolvedUUIDs` is not cleared; reparented
`.uuid-resolver-tooltip` elements under `document.body` and
`.uuid-resolver-angular-overlay` wrapper divs carry none of the three
classes and are not touched. -/
def removeAllEnhancements (st : UIEnhancer) (page : Page) :
    UIEnhancer × Page :=
  ({ processedElements := [], resolvedUUIDs := st.resolvedUUIDs },
   { containers := page.containers.map (fun c =>
       { c with markers :=
           c.markers.filter (fun m => !(enhancementClasses.contains m.cls)) }),
     bodyTooltipUuids := page.bodyTooltipUuids })

/-- Number of marker spans (elements with an enhancement class) inside the
containers. -/
def markerNodeCount (cs : List Container) : Nat :=
  (cs.map (fun c =>
    (c.markers.filter (fun m => enhancementClasses.contains m.cls)).length)).sum

/-- Number of annotation marker nodes in the document. -/
def annotationCount (page : Page) : Nat :=
  markerNodeCount page.containers

/-- Total number of extension-inserted nodes in the document: marker spans,
reparented tooltips under `document.body`, and overlay wrapper divs. -/
def extensionNodeCount (page : Page) : Nat :=
  annotationCount page + page.bodyTooltipUuids.length
    + (page.containers.map (fun c => c.overlays)).sum

/-- The `getStatistics()` result shape. -/
structure Statistics where
  total : Nat
  byType : List (String × Nat)
deriving Repr, DecidableEq

/-- Source `stats.byType[type] = (stats.byType[type] || 0) + 1` (a JS object never
holds a key twice, so bumping the first hit is exact). -/
def bumpType : List (String × Nat) → String → List (String × Nat)
  | [], k => [(k, 1)]
  | (k', v) :: m, k =>
    if k' == k then (k', v + 1) :: m else (k', v) :: bumpType m k

/-- Source `getStatistics()`: total is the size of the map (which never holds
duplicate keys, so its size is the association list's length) and a per-type
tally over the map's values. -/
def getStatistics (st : UIEnhancer) : Statistics :=
  { total := st.resolvedUUIDs.length,
    byType := st.resolvedUUIDs.foldl (fun acc p => bumpType acc p.2.type) [] }

/-- Sum of the per-type counters. -/
def byTypeSum (m : List (String × Nat)) : Nat :=
  (m.map (fun p => p.2)).sum

/-! ## Content-script orchestration (`src/content/content-script.js`)

`getExtensionSettings()` reads `{enabled, autoRefresh, cacheTimeout}` from
storage; the popup additionally persists per-type `entityTypes` toggles
(`resolveTags`, `resolveScripts`, …).  The init code checks only
`settings.enabled` (lines 34–38) and returns before any scanning when it is
false; otherwise `performInitialScan` scans and feeds every detected
occurrence to `enhanceUI`. -/

structure Settings where
  enabled : Bool
  entityTypes : List (String × Bool)
  cacheTimeout : Nat
deriving Repr, DecidableEq

/-- Result of one init run: occurrences detected, resulting page, the
`(uuid, entityType)` pairs resolution was invoked for, and the final
detector/enhancer states. -/
structure InitResult where
  detected : List UuidOccurrence
  page : Page
  calls : List (String × String)
  detectedSet : List String
  enh : UIEnhancer
deriving Repr, DecidableEq

/-- The content-script init: `if (!settings.enabled) return;` before any
scanning; else scan and enhance. -/
def contentScriptInit (settings : Settings)
    (resolver : String → String → ResolvedEntity) (els : List InputEl)
    (detected : List String) (st : UIEnhancer) (page : Page) : InitResult :=
  if !settings.enabled then
    ⟨[], page, [], detected, st⟩
  else
    let s := scanInputElements detected els
    let r := enhanceUI resolver st page s.1
    ⟨s.1, r.2.1, r.2.2, s.2, r.1⟩

/-! ## Pipeline composition (used to state idempotence and statistics) -/

/-- One scan-classify-resolve-annotate pass: scan the input elements with
the detector state, feed the occurrences to `enhanceUI`.  Returns the
detector set, the enhancer state and the page. -/
def pipelineOnce (resolver : String → String → ResolvedEntity)
    (els : List InputEl) (detected : List String) (st : UIEnhancer)
    (page : Page) : List String × UIEnhancer × Page :=
  let s := scanInputElements detected els
  let r := enhanceUI resolver st page s.1
  (s.2, r.1, r.2.1)

/-- Two consecutive passes over the same (unchanged) input elements. -/
def pipelineTwice (resolver : String → String → ResolvedEntity)
    (els : List InputEl) (detected : List String) (st : UIEnhancer)
    (page : Page) : List String × UIEnhancer × Page :=
  let p := pipelineOnce resolver els detected st page
  pipelineOnce resolver els p.1 p.2.1 p.2.2

/-- Any number of `enhanceUI` runs against one `UIEnhancer` instance,
accumulating the log of resolution invocations. -/
def runBatches (resolver : String → String → ResolvedEntity) :
    List (List UuidOccurrence) → UIEnhancer → Page →
    UIEnhancer × Page × List (String × String)
  | [], st, page => (st, page, [])
  | b :: bs, st, page =>
    let r := enhanceUI resolver st page b
    let r2 := runBatches resolver bs r.1 r.2.1
    (r2.1, r2.2.1, r.2.2 ++ r2.2.2)

/-! # Theorems -/

/-! ## Cache and resolver client (claims C2, C3, C4) -/

/-- The constructor's cache is empty, so every lookup misses. -/
theorem getCachedResult_clientInit (key : String) (now : Nat) :
    getCachedResult clientInit key now = none := rfl

/-- A first `resolveUUID` against a fresh client with a successful response:
one network call, and the result is cached under the call's key with the
call's timestamp. -/
theorem resolveUUID_first (u t : String) (d : ResolvedEntity) (t1 : Nat) :
    resolveUUID clientInit t1 u t (.ok d)
      = ⟨d, ⟨[(cacheKey u t, ⟨d, t1⟩)], 5 * 60 * 1000⟩, true⟩ := rfl

/-- Lookup in a singleton cache: found iff the entry is not yet expired. -/
theorem getCachedResult_single (key : String) (e : CacheEntry) (ex now : Nat) :
    getCachedResult ⟨[(key, e)], ex⟩ key now
      = if now - e.timestamp < ex then some e.data else none := by
  simp [getCachedResult, mapGet, List.find?]

/-- C2 (corrected, counterexample): the claim reads "a cache entry is treated
as absent exactly when `now - insertedAt > cacheTimeout`".  Resolve at time 0,
then look up at time 300000 (= the 5-minute default `cacheTimeout`):
`now - insertedAt > cacheTimeout` is false, so the claim says the entry is
present — but `getCachedResult` returns `null`, because the code's presence
test is the strict `now - timestamp < cacheExpiry`. -/
theorem C2_counterexample :
    ¬ (300000 - 0 > clientInit.cacheExpiry)
    ∧ getCachedResult
        (resolveUUID clientInit 0 "ff645018-de64-43cb-a80c-d63da9422c82"
          "script"
          (.ok ⟨"ff645018-de64-43cb-a80c-d63da9422c82", "Nightly Cleanup",
                "script", none⟩)).client
        (cacheKey "ff645018-de64-43cb-a80c-d63da9422c82" "script") 300000
      = none := by
  exact ⟨by decide, by decide⟩

/-- C2 (amended): calling `resolve(u, t)` twice with a successful authority
results in exactly one network request when the second call is strictly
within the expiry window (`now₂ - now₁ < cacheTimeout`, default 5 minutes)
and two requests otherwise — in particular two when the clock advances past
expiry; and a cache entry is treated as absent exactly when
`now - insertedAt ≥ cacheTimeout` (the boundary `now - insertedAt =
cacheTimeout` counts as absent). -/
theorem C2_cache_network_calls (u t : String) (d d2 : ResolvedEntity)
    (t1 t2 : Nat) (h : t1 ≤ t2) :
    netCount (resolveUUID clientInit t1 u t (.ok d))
      + netCount (resolveUUID (resolveUUID clientInit t1 u t (.ok d)).client
          t2 u t (.ok d2))
      = (if t2 - t1 < clientInit.cacheExpiry then 1 else 2)
    ∧ (getCachedResult (resolveUUID clientInit t1 u t (.ok d)).client
          (cacheKey u t) t2 = none
        ↔ t2 - t1 ≥ clientInit.cacheExpiry) := by
  rw [resolveUUID_first]
  have hget := getCachedResult_single (cacheKey u t) ⟨d, t1⟩
    (5 * 60 * 1000) t2
  by_cases hlt : t2 - t1 < 5 * 60 * 1000
  · constructor
    · simp only [resolveUUID, netCount, hget, hlt, if_pos]
      simp [clientInit, hlt]
    · simp only [hget]
      simp [clientInit, hlt]
  · constructor
    · simp only [resolveUUID, netCount, hget]
      rw [if_neg hlt]
      simp [clientInit, hlt]
    · simp only [hget]
      rw [if_neg hlt]
      simp [clientInit]
      omega

/-- C2 witness: with the second call exactly at the expiry boundary
(`t2 - t1 = 300000`), two network calls happen and the entry is absent. -/
theorem C2_witness :
    netCount (resolveUUID clientInit 0 "u1" "tag" (.ok ⟨"u1", "A", "tag", none⟩))
      + netCount (resolveUUID
          (resolveUUID clientInit 0 "u1" "tag"
            (.ok ⟨"u1", "A", "tag", none⟩)).client
          300000 "u1" "tag" (.ok ⟨"u1", "A", "tag", none⟩))
      = (if 300000 - 0 < clientInit.cacheExpiry then 1 else 2)
    ∧ (getCachedResult
          (resolveUUID clientInit 0 "u1" "tag"
            (.ok ⟨"u1", "A", "tag", none⟩)).client
          (cacheKey "u1" "tag") 300000 = none
        ↔ 300000 - 0 ≥ clientInit.cacheExpiry) :=
  C2_cache_network_calls "u1" "tag" ⟨"u1", "A", "tag", none⟩
    ⟨"u1", "A", "tag", none⟩ 0 300000 (by decide)

/-- C3 (confirmed): `resolveUUID` is modeled as a total function into
`ResolveOutcome` — the `try`/`catch` converts every failure into a returned
value, never a thrown exception — and on any failing background response
(with no fresh cache hit) the returned value is ResolvedEntity-shaped with
`name = "Resolution Failed: <message>"` and the `error` field set, echoing
the requested uuid and entity type. -/
theorem C3_resolve_never_throws (c : UEMAPIClient) (now : Nat) (u t e : String)
    (h : getCachedResult c (cacheKey u t) now = none) :
    (resolveUUID c now u t (.error e)).result.error = some e
    ∧ (resolveUUID c now u t (.error e)).result.name
        = "Resolution Failed: " ++ e
    ∧ (resolveUUID c now u t (.error e)).result.uuid = u
    ∧ (resolveUUID c now u t (.error e)).result.type = t := by
  simp [resolveUUID, h]

/-- C3 witness: a fresh client, failing authority. -/
theorem C3_witness :
    (resolveUUID clientInit 0 "u1" "script" (.error "network down")).result.error
      = some "network down"
    ∧ (resolveUUID clientInit 0 "u1" "script"
        (.error "network down")).result.name
      = "Resolution Failed: " ++ "network down"
    ∧ (resolveUUID clientInit 0 "u1" "script"
        (.error "network down")).result.uuid = "u1"
    ∧ (resolveUUID clientInit 0 "u1" "script"
        (.error "network down")).result.type = "script" :=
  C3_resolve_never_throws clientInit 0 "u1" "script" "network down" rfl

/-- C4 (corrected, counterexample): the claim says a failure result is stored
in the cache so that a repeated resolve within the expiry window does not
issue another request.  Resolving twice at the very same instant (certainly
within any window) with a failing authority issues a network request both
times, and the failing first call leaves the cache empty. -/
theorem C4_counterexample :
    (resolveUUID clientInit 0 "u1" "script" (.error "HTTP 500")).networkCalled
      = true
    ∧ (resolveUUID
        (resolveUUID clientInit 0 "u1" "script" (.error "HTTP 500")).client
        0 "u1" "script" (.error "HTTP 500")).networkCalled = true
    ∧ (resolveUUID clientInit 0 "u1" "script" (.error "HTTP 500")).client.cache
      = [] := by
  exact ⟨rfl, rfl, rfl⟩

/-- C4 (amended): a failed resolution is NOT stored in the cache — the
client state is unchanged by any failing call — so a repeated resolve for
the same (uuid, entityType) issues another request to the remote authority
even within the expiry window; a manual cache-clear removes all entries
immediately, bypassing expiry. -/
theorem C4_failures_not_cached :
    (∀ (c : UEMAPIClient) (now : Nat) (u t e : String),
      (resolveUUID c now u t (.error e)).client = c)
    ∧ (∀ (t1 t2 : Nat) (u t e1 e2 : String),
      (resolveUUID clientInit t1 u t (.error e1)).networkCalled = true
      ∧ (resolveUUID (resolveUUID clientInit t1 u t (.error e1)).client
          t2 u t (.error e2)).networkCalled = true)
    ∧ (∀ (c : UEMAPIClient), (clearCache c).cache = []
      ∧ ∀ (k : String) (n : Nat), getCachedResult (clearCache c) k n = none) := by
  refine ⟨?_, ?_, ?_⟩
  · intro c now u t e
    cases hc : getCachedResult c (cacheKey u t) now <;> simp [resolveUUID, hc]
  · intro t1 t2 u t e1 e2
    constructor
    · rfl
    · have hcl : (resolveUUID clientInit t1 u t (.error e1)).client
          = clientInit := rfl
      rw [hcl]
      rfl
  · intro c
    exact ⟨rfl, fun k n => rfl⟩

/-! ## Entity type classifier (claims C5, C6) -/

/-- A walk over levels none of which offers label or snippet evidence lands
in the page-context fallback. -/
theorem surroundingWalk_no_evidence (uuid : String) (page : PageCtx) :
    ∀ (ls : List AncestorLevel),
      (∀ lvl ∈ ls, lvl.labels = [] ∧ levelSnippetType lvl uuid = none) →
      surroundingWalk uuid page ls = inferEntityTypeFromPageContext page := by
  intro ls
  induction ls with
  | nil => intro _; rfl
  | cons l ls ih =>
    intro h
    have hl := h l (List.mem_cons_self l ls)
    have hrest := fun lvl hm => h lvl (List.mem_cons_of_mem l hm)
    simp only [surroundingWalk, hl.1, firstLabelType, hl.2]
    exact ih hrest

/-- C5 (confirmed): evidence is applied in priority order.  (1) An occurrence
whose nearest form-field label is "Script UUID" classifies as `script`
whatever the rest of the chain and the page contain — in particular when the
page body text contains "application", the label outranks the page-level
fallback.  (2) With no labels, no ancestor snippet keyword match, and a page
whose fallback yields the default, the classification is `application`.
(3) `inferEntityTypeFromElement` itself: a "Script UUID" label gives
`script`; no label gives the default `application` directly. -/
theorem C5_classifier_priority :
    (∀ (text : String) (rest : List AncestorLevel) (uuid : String)
      (page : PageCtx),
      jsIncludes page.bodyText "application" = true →
      inferEntityTypeFromSurroundingElements
        (⟨["Script UUID"], text⟩ :: rest) uuid page = "script")
    ∧ (∀ (levels : List AncestorLevel) (uuid : String) (page : PageCtx),
      (∀ lvl ∈ levels, lvl.labels = []) →
      (∀ lvl ∈ levels, levelSnippetType lvl uuid = none) →
      inferEntityTypeFromPageContext page = "application" →
      inferEntityTypeFromSurroundingElements levels uuid page = "application")
    ∧ inferEntityTypeFromElement (some "Script UUID") = "script"
    ∧ inferEntityTypeFromElement none = "application" := by
  refine ⟨?_, ?_, by decide, rfl⟩
  · intro text rest uuid page _
    have hlbl : firstLabelType ["Script UUID"] = some "script" := by decide
    simp only [inferEntityTypeFromSurroundingElements, List.take,
      surroundingWalk, hlbl]
  · intro levels uuid page hlabels hsnips hpage
    have h : ∀ lvl ∈ levels.take 10,
        lvl.labels = [] ∧ levelSnippetType lvl uuid = none := by
      intro lvl hm
      have hmem := List.mem_of_mem_take hm
      exact ⟨hlabels lvl hmem, hsnips lvl hmem⟩
    rw [inferEntityTypeFromSurroundingElements,
      surroundingWalk_no_evidence uuid page _ h, hpage]

/-- C5 witness: the two scenarios at concrete inputs. -/
theorem C5_witness :
    inferEntityTypeFromSurroundingElements
      [⟨["Script UUID"], "some text"⟩] "ff645018-de64-43cb-a80c-d63da9422c82"
      ⟨"this application page", "apps", "https://uem.example.com/apps"⟩
      = "script"
    ∧ inferEntityTypeFromSurroundingElements
      [⟨[], "no keywords here"⟩] "ff645018-de64-43cb-a80c-d63da9422c82"
      ⟨"hello world", "welcome", "https://example.com/home"⟩
      = "application" := by
  constructor
  · exact C5_classifier_priority.1 "some text" [] _ _ (by decide)
  · exact C5_classifier_priority.2.1 _ _ _ (by decide) (by decide) (by decide)

/-- C6 (corrected, counterexample): the claim requires word-boundary
tokenization (a keyword inside another word must not trigger) and the
type-priority order organization-group, product, script, tag, application,
profile.  But the label "vintage" — where "tag" occurs only inside the word —
classifies as `tag`, and "tag profile" classifies as `profile` although the
claimed order would pick `tag` first. -/
theorem C6_counterexample :
    inferEntityTypeFromLabel "vintage" = "tag"
    ∧ inferEntityTypeFromLabel "tag profile" = "profile" := by
  exact ⟨by decide, by decide⟩

/-- C6 (amended): the keyword classification uses naive case-insensitive
substring containment (JS `includes`), under which a keyword inside another
word does trigger a match, and the label classifier's fallback checks run in
the order organization-group, product, script, profile, tag, with default
`application` (the page-context and surrounding-element sites use yet
another order: tag, profile, script, product, organization-group). -/
theorem C6_substring_order (s : String)
    (hdirect : labelDirectHit (jsTrim (jsToLower s)) = false)
    (horg : jsIncludes (jsTrim (jsToLower s)) "organization" = false)
    (horgg : jsIncludes (jsTrim (jsToLower s)) "org group" = false)
    (hprod : jsIncludes (jsTrim (jsToLower s)) "product" = false)
    (hscript : jsIncludes (jsTrim (jsToLower s)) "script" = false) :
    (jsIncludes (jsTrim (jsToLower s)) "profile" = true →
      inferEntityTypeFromLabel s = "profile")
    ∧ (jsIncludes (jsTrim (jsToLower s)) "profile" = false →
      jsIncludes (jsTrim (jsToLower s)) "tag" = true →
      inferEntityTypeFromLabel s = "tag")
    ∧ (jsIncludes (jsTrim (jsToLower s)) "profile" = false →
      jsIncludes (jsTrim (jsToLower s)) "tag" = false →
      inferEntityTypeFromLabel s = "application") := by
  simp only [labelDirectHit, Bool.or_eq_false_iff] at hdirect
  obtain ⟨⟨⟨⟨⟨⟨h1, h2⟩, h3⟩, h4⟩, h5⟩, h6⟩, h7⟩ := hdirect
  refine ⟨?_, ?_, ?_⟩
  · intro hp
    simp [inferEntityTypeFromLabel, h1, h2, h3, h4, h5, h6, h7,
      horg, horgg, hprod, hscript, hp]
  · intro hp ht
    simp [inferEntityTypeFromLabel, h1, h2, h3, h4, h5, h6, h7,
      horg, horgg, hprod, hscript, hp, ht]
  · intro hp ht
    simp [inferEntityTypeFromLabel, h1, h2, h3, h4, h5, h6, h7,
      horg, horgg, hprod, hscript, hp, ht]

/-- C6 witness: "microprofile" (where "profile" occurs only inside the word)
classifies as `profile` through the theorem's first clause. -/
theorem C6_witness : inferEntityTypeFromLabel "microprofile" = "profile" :=
  (C6_substring_order "microprofile" (by decide) (by decide) (by decide)
    (by decide) (by decide)).1 (by decide)


/-! ## Scanner lemmas (claim C1, also feeding C7) -/

theorem contains_eq_true_iff (l : List String) (a : String) :
    l.contains a = true ↔ a ∈ l :=
  List.elem_iff

theorem contains_eq_false_iff (l : List String) (a : String) :
    l.contains a = false ↔ a ∉ l := by
  rw [← contains_eq_true_iff]
  cases l.contains a <;> simp

theorem bool_false_not_true {b : Bool} (h : b = false) : ¬ (b = true) := by
  simp [h]

/-- The detected set only grows during the match loop. -/
theorem addMatches_state_mono (e : InputEl) :
    ∀ (ms detected : List String) (u : String),
      u ∈ detected → u ∈ (addMatches e detected ms).2 := by
  intro ms
  induction ms with
  | nil => intro detected u hu; exact hu
  | cons m ms ih =>
    intro detected u hu
    cases hc : detected.contains m with
    | true =>
      simp only [addMatches]
      rw [if_pos hc]
      exact ih detected u hu
    | false =>
      simp only [addMatches]
      rw [if_neg (bool_false_not_true hc)]
      exact ih (m :: detected) u (.tail m hu)

/-- Every match ends up recorded in the detected set. -/
theorem addMatches_matches_in_state (e : InputEl) :
    ∀ (ms detected : List String) (u : String),
      u ∈ ms → u ∈ (addMatches e detected ms).2 := by
  intro ms
  induction ms with
  | nil => intro _ _ hu; cases hu
  | cons m ms ih =>
    intro detected u hu
    cases hc : detected.contains m with
    | true =>
      simp only [addMatches]
      rw [if_pos hc]
      rcases List.mem_cons.mp hu with h | h
      · subst h
        exact addMatches_state_mono e ms detected u
          ((contains_eq_true_iff _ _).mp hc)
      · exact ih detected u h
    | false =>
      simp only [addMatches]
      rw [if_neg (bool_false_not_true hc)]
      rcases List.mem_cons.mp hu with h | h
      · subst h
        exact addMatches_state_mono e ms (u :: detected) u (.head detected)
      · exact ih (m :: detected) u h

/-- Every emission of the match loop is a fresh match of this element,
registered in the final detected set, and carries the element's identity,
container and label classification. -/
theorem addMatches_occs (e : InputEl) :
    ∀ (ms detected : List String) (o : UuidOccurrence),
      o ∈ (addMatches e detected ms).1 →
      o.uuid ∉ detected ∧ o.uuid ∈ ms ∧ o.uuid ∈ (addMatches e detected ms).2
      ∧ o.elemId = e.elemId ∧ o.containerId = e.containerId
      ∧ o.entityType = inferEntityTypeFromElement e.label := by
  intro ms
  induction ms with
  | nil => intro _ o ho; cases ho
  | cons m ms ih =>
    intro detected o ho
    cases hc : detected.contains m with
    | true =>
      simp only [addMatches] at ho ⊢
      rw [if_pos hc] at ho ⊢
      obtain ⟨h1, h2, h3, h4, h5, h6⟩ := ih detected o ho
      exact ⟨h1, .tail m h2, h3, h4, h5, h6⟩
    | false =>
      simp only [addMatches] at ho ⊢
      rw [if_neg (bool_false_not_true hc)] at ho ⊢
      rcases List.mem_cons.mp ho with h | h
      · subst h
        refine ⟨(contains_eq_false_iff _ _).mp hc, .head ms, ?_, rfl, rfl, rfl⟩
        exact addMatches_state_mono e ms (m :: detected) m (.head detected)
      · obtain ⟨h1, h2, h3, h4, h5, h6⟩ := ih (m :: detected) o h
        exact ⟨fun hmem => h1 (.tail m hmem), .tail m h2, h3, h4, h5, h6⟩

/-- The match loop emits each uuid string at most once. -/
theorem addMatches_nodup (e : InputEl) :
    ∀ (ms detected : List String),
      ((addMatches e detected ms).1.map (fun o => o.uuid)).Nodup := by
  intro ms
  induction ms with
  | nil => intro _; simp [addMatches]
  | cons m ms ih =>
    intro detected
    cases hc : detected.contains m with
    | true =>
      simp only [addMatches]
      rw [if_pos hc]
      exact ih detected
    | false =>
      simp only [addMatches]
      rw [if_neg (bool_false_not_true hc)]
      simp only [List.map_cons, List.nodup_cons]
      refine ⟨?_, ih (m :: detected)⟩
      intro hmem
      obtain ⟨o, ho, hou⟩ := List.mem_map.mp hmem
      have := (addMatches_occs e ms (m :: detected) o ho).1
      exact this (hou ▸ List.mem_cons_self m detected)

/-- If every match is already recorded, the loop emits nothing and the
detected set is unchanged. -/
theorem addMatches_saturated (e : InputEl) :
    ∀ (ms detected : List String), (∀ u ∈ ms, u ∈ detected) →
      addMatches e detected ms = ([], detected) := by
  intro ms
  induction ms with
  | nil => intro _ _; rfl
  | cons m ms ih =>
    intro detected h
    have hc : detected.contains m = true :=
      (contains_eq_true_iff _ _).mpr (h m (.head ms))
    simp only [addMatches]
    rw [if_pos hc]
    exact ih detected (fun u hu => h u (.tail m hu))

/-- The detected set only grows across a scan pass. -/
theorem scanInputElements_state_mono :
    ∀ (els : List InputEl) (detected : List String) (u : String),
      u ∈ detected → u ∈ (scanInputElements detected els).2 := by
  intro els
  induction els with
  | nil => intro _ u hu; exact hu
  | cons e es ih =>
    intro detected u hu
    cases hs : (e.skip || !e.validCtx) with
    | true =>
      simp only [scanInputElements]
      rw [if_pos hs]
      exact ih detected u hu
    | false =>
      simp only [scanInputElements]
      rw [if_neg (bool_false_not_true hs)]
      exact ih _ u (addMatches_state_mono e (jsUuidMatches e.value) detected u hu)

/-- After a scan pass, every match of every scanned element is recorded. -/
theorem scanInputElements_covers :
    ∀ (els : List InputEl) (detected : List String) (e : InputEl),
      e ∈ els → (e.skip || !e.validCtx) = false →
      ∀ u ∈ jsUuidMatches e.value,
        u ∈ (scanInputElements detected els).2 := by
  intro els
  induction els with
  | nil => intro _ _ he; cases he
  | cons e0 es ih =>
    intro detected e he hvalid u hu
    rcases List.mem_cons.mp he with h | h
    · subst h
      simp only [scanInputElements]
      rw [if_neg (bool_false_not_true hvalid)]
      exact scanInputElements_state_mono es _ u
        (addMatches_matches_in_state e (jsUuidMatches e.value) detected u hu)
    · cases hs : (e0.skip || !e0.validCtx) with
      | true =>
        simp only [scanInputElements]
        rw [if_pos hs]
        exact ih detected e h hvalid u hu
      | false =>
        simp only [scanInputElements]
        rw [if_neg (bool_false_not_true hs)]
        exact ih _ e h hvalid u hu

/-- Every occurrence a scan pass emits is absent from the initial detected
set, present in the final one, and originates verbatim from a match of one
non-skipped, valid-context element, carrying that element's identity,
container, and label classification. -/
theorem scanInputElements_occs :
    ∀ (els : List InputEl) (detected : List String) (o : UuidOccurrence),
      o ∈ (scanInputElements detected els).1 →
      o.uuid ∉ detected ∧ o.uuid ∈ (scanInputElements detected els).2
      ∧ ∃ e ∈ els, e.skip = false ∧ e.validCtx = true
          ∧ o.uuid ∈ jsUuidMatches e.value ∧ o.elemId = e.elemId
          ∧ o.containerId = e.containerId
          ∧ o.entityType = inferEntityTypeFromElement e.label := by
  intro els
  induction els with
  | nil => intro _ o ho; cases ho
  | cons e es ih =>
    intro detected o ho
    cases hs : (e.skip || !e.validCtx) with
    | true =>
      simp only [scanInputElements] at ho ⊢
      rw [if_pos hs] at ho ⊢
      obtain ⟨h1, h2, e1, he1, hrest⟩ := ih detected o ho
      exact ⟨h1, h2, e1, .tail e he1, hrest⟩
    | false =>
      have hskip : e.skip = false ∧ e.validCtx = true := by
        constructor
        · cases h : e.skip
          · rfl
          · rw [h] at hs; simp at hs
        · cases h : e.validCtx
          · rw [h] at hs; simp at hs
          · rfl
      simp only [scanInputElements] at ho ⊢
      rw [if_neg (bool_false_not_true hs)] at ho ⊢
      rcases List.mem_append.mp ho with h | h
      · obtain ⟨h1, h2, h3, h4, h5, h6⟩ :=
          addMatches_occs e (jsUuidMatches e.value) detected o h
        refine ⟨h1, ?_, e, .head es, hskip.1, hskip.2, h2, h4, h5, h6⟩
        exact scanInputElements_state_mono es _ o.uuid h3
      · obtain ⟨h1, h2, e1, he1, hrest⟩ := ih _ o h
        refine ⟨fun hmem => h1 ?_, h2, e1, .tail e he1, hrest⟩
        exact addMatches_state_mono e (jsUuidMatches e.value) detected
          o.uuid hmem

/-- A scan pass emits each uuid string at most once, across all elements. -/
theorem scanInputElements_nodup :
    ∀ (els : List InputEl) (detected : List String),
      ((scanInputElements detected els).1.map (fun o => o.uuid)).Nodup := by
  intro els
  induction els with
  | nil => intro _; simp [scanInputElements]
  | cons e es ih =>
    intro detected
    cases hs : (e.skip || !e.validCtx) with
    | true =>
      simp only [scanInputElements]
      rw [if_pos hs]
      exact ih detected
    | false =>
      simp only [scanInputElements]
      rw [if_neg (bool_false_not_true hs)]
      simp only [List.map_append, List.nodup_append]
      refine ⟨addMatches_nodup e (jsUuidMatches e.value) detected, ih _, ?_⟩
      intro u hu1 hu2
      obtain ⟨o1, ho1, hou1⟩ := List.mem_map.mp hu1
      obtain ⟨o2, ho2, hou2⟩ := List.mem_map.mp hu2
      have hin : o1.uuid ∈ (addMatches e detected (jsUuidMatches e.value)).2 :=
        (addMatches_occs e (jsUuidMatches e.value) detected o1 ho1).2.2.1
      have hout : o2.uuid ∉ (addMatches e detected (jsUuidMatches e.value)).2 :=
        (scanInputElements_occs es _ o2 ho2).1
      exact hout (hou2 ▸ hou1 ▸ hin)

/-- If every match of every scanned element is already recorded, a scan pass
emits nothing and leaves the detected set unchanged. -/
theorem scanInputElements_saturated :
    ∀ (els : List InputEl) (detected : List String),
      (∀ e ∈ els, (e.skip || !e.validCtx) = false →
        ∀ u ∈ jsUuidMatches e.value, u ∈ detected) →
      scanInputElements detected els = ([], detected) := by
  intro els
  induction els with
  | nil => intro _ _; rfl
  | cons e es ih =>
    intro detected h
    cases hs : (e.skip || !e.validCtx) with
    | true =>
      simp only [scanInputElements]
      rw [if_pos hs]
      exact ih detected (fun e1 he1 => h e1 (.tail e he1))
    | false =>
      have hsat := addMatches_saturated e (jsUuidMatches e.value) detected
        (h e (.head es) hs)
      simp only [scanInputElements]
      rw [if_neg (bool_false_not_true hs), hsat]
      simpa using ih detected (fun e1 he1 => h e1 (.tail e he1))

/-! ## Scanner claims (claim C1) -/

/-- C1 (corrected, counterexample): two distinct DOM locations (element ids 1
and 2, containers 10 and 20) both hold the same uppercase-spelled UUID.  The
claim demands one occurrence per (uuid, location) pair — so two occurrences,
with lowercased uuids.  The scanner emits exactly one occurrence, from the
first location only, and its uuid keeps the original uppercase spelling. -/
theorem C1_counterexample :
    (scanInputElements []
        [⟨1, "217E2FF1-2A30-4DAA-B23A-4D3D961D4A4B", false, true, 10, 10,
          true, false, none⟩,
         ⟨2, "217E2FF1-2A30-4DAA-B23A-4D3D961D4A4B", false, true, 20, 20,
          true, false, none⟩]).1
      = [⟨"217E2FF1-2A30-4DAA-B23A-4D3D961D4A4B", 1, 10, 10, true, false,
          "application"⟩]
    ∧ "217E2FF1-2A30-4DAA-B23A-4D3D961D4A4B"
      ≠ jsToLower "217E2FF1-2A30-4DAA-B23A-4D3D961D4A4B" := by
  exact ⟨by decide, by decide⟩

/-- C1 (amended): matching is case-insensitive, but the emitted occurrence
preserves the source string's case, and anti-duplication is global per exact
uuid string within the scan generation — each uuid string is emitted at most
once per scan, never for a uuid already recorded, and every emission
originates verbatim from a match in some scanned element. -/
theorem C1_scanner_dedup (detected : List String) (els : List InputEl) :
    ((scanInputElements detected els).1.map (fun o => o.uuid)).Nodup
    ∧ (∀ o ∈ (scanInputElements detected els).1, o.uuid ∉ detected)
    ∧ (∀ o ∈ (scanInputElements detected els).1,
        ∃ e ∈ els, e.skip = false ∧ e.validCtx = true
          ∧ o.uuid ∈ jsUuidMatches e.value ∧ o.elemId = e.elemId
          ∧ o.containerId = e.containerId
          ∧ o.entityType = inferEntityTypeFromElement e.label)
    ∧ jsUuidMatches "217E2FF1-2A30-4DAA-B23A-4D3D961D4A4B"
        = ["217E2FF1-2A30-4DAA-B23A-4D3D961D4A4B"] := by
  refine ⟨scanInputElements_nodup els detected, ?_, ?_, by decide⟩
  · intro o ho
    exact (scanInputElements_occs els detected o ho).1
  · intro o ho
    exact (scanInputElements_occs els detected o ho).2.2

/-! ## Annotator lemmas (claims C7, C8) -/

/-- Calling `injectResolvedName` when the scoped search recognizes a marker
is a no-op on the page. -/
theorem injectResolvedName_skip (page : Page) (occ : UuidOccurrence)
    (data : ResolvedEntity)
    (h : findExistingResolution page occ.containerId occ.uuid = true) :
    injectResolvedName page occ data = page := by
  simp [injectResolvedName, h]

/-- Matching a list against itself at the head succeeds. -/
theorem headEq_refl : ∀ (cs : List Char), headEq cs cs = true := by
  intro cs
  induction cs with
  | nil => rfl
  | cons c cs ih => simp [headEq, ih]

/-- A string is a substring of itself. -/
theorem listHasSub_self : ∀ (s : List Char), listHasSub s s = true := by
  intro s
  cases s with
  | nil => rfl
  | cons c cs => simp [listHasSub, headEq_refl]

/-- A suffix is a substring. -/
theorem listHasSub_suffix : ∀ (pre s : List Char),
    listHasSub s (pre ++ s) = true := by
  intro pre
  induction pre with
  | nil => intro s; simpa using listHasSub_self s
  | cons p ps ih =>
    intro s
    show (headEq s (p :: (ps ++ s)) || listHasSub s (ps ++ s)) = true
    rw [ih s, Bool.or_true]

/-- JS `includes`: appending in front keeps the needle found. -/
theorem jsIncludes_append_self (pre s : String) :
    jsIncludes (pre ++ s) s = true := by
  simp only [jsIncludes, String.data_append]
  exact listHasSub_suffix pre.data s.data

/-- Both update functions preserve the container identity. -/
theorem inputInsertUpd_cid (tc : Nat) (wrap : Bool) (m : Marker)
    (c : Container) : (inputInsertUpd tc wrap m c).cid = c.cid := by
  by_cases h : c.cid = tc <;> simp [inputInsertUpd, h]

theorem appendMarkerUpd_cid (cid : Nat) (m : Marker) (c : Container) :
    (appendMarkerUpd cid m c).cid = c.cid := by
  by_cases h : c.cid = cid <;> simp [appendMarkerUpd, h]

/-- Marker lists under the input-field update. -/
theorem inputInsertUpd_markers (tc : Nat) (wrap : Bool) (m : Marker)
    (c : Container) :
    (inputInsertUpd tc wrap m c).markers
      = if (c.cid == tc) = true then
          c.markers ++ [{ m with tooltipAttached := false }]
        else c.markers := by
  by_cases h : (c.cid == tc) = true
  · rw [if_pos h]; simp [inputInsertUpd, h]
  · rw [if_neg h]; simp [inputInsertUpd, h]

/-- Marker lists under the inline update. -/
theorem appendMarkerUpd_markers (cid : Nat) (m : Marker) (c : Container) :
    (appendMarkerUpd cid m c).markers
      = if (c.cid == cid) = true then c.markers ++ [m] else c.markers := by
  by_cases h : (c.cid == cid) = true
  · rw [if_pos h]; simp [appendMarkerUpd, h]
  · rw [if_neg h]; simp [appendMarkerUpd, h]

/-- Searching a cid over a cid-preserving container map finds the image of
what the search over the originals finds. -/
theorem find?_cid_of_map (g : Container → Container)
    (hg : ∀ c, (g c).cid = c.cid) (cid : Nat) :
    ∀ cs : List Container,
      (cs.map g).find? (fun c => c.cid == cid)
        = (cs.find? (fun c => c.cid == cid)).map g := by
  intro cs
  induction cs with
  | nil => rfl
  | cons c cs ih =>
    simp only [List.map_cons, List.find?_cons]
    cases h : (c.cid == cid) with
    | true =>
      have h1 : ((g c).cid == cid) = true := by rw [hg c]; exact h
      simp only [h1, h]
      rfl
    | false =>
      have h1 : ((g c).cid == cid) = false := by rw [hg c]; exact h
      simp only [h1, h]
      exact ih

/-- The input-field insertion is invisible to every scoped search: the
marker it adds has no `.tooltip-uuid` descendant any more, so no
`findExistingResolution` outcome changes. -/
theorem findExisting_input_invisible (page : Page) (bts : List String)
    (tc : Nat) (wrap : Bool) (m : Marker) (cid : Nat) (u : String) :
    findExistingResolution
        ⟨page.containers.map (inputInsertUpd tc wrap m), bts⟩ cid u
      = findExistingResolution page cid u := by
  simp only [findExistingResolution]
  rw [find?_cid_of_map (inputInsertUpd tc wrap m)
    (inputInsertUpd_cid tc wrap m) cid page.containers]
  cases hf : page.containers.find? (fun c => c.cid == cid) with
  | none => rfl
  | some c =>
    simp only [Option.map_some']
    rw [inputInsertUpd_markers]
    by_cases h : (c.cid == tc) = true
    · rw [if_pos h, List.any_append]
      simp
    · rw [if_neg h]

/-- After an inline insertion of a tooltip-attached `.uuid-resolver-info`
marker whose tooltip text contains `u`, the scoped search for `u` in that
container succeeds. -/
theorem findExisting_append_found (page : Page) (bts : List String)
    (cid : Nat) (mk : Marker) (u : String)
    (hcls : mk.cls = "uuid-resolver-info") (hatt : mk.tooltipAttached = true)
    (hinc : jsIncludes ("UUID: " ++ mk.uuid) u = true)
    (hex : ∃ c ∈ page.containers, c.cid = cid) :
    findExistingResolution
        ⟨page.containers.map (appendMarkerUpd cid mk), bts⟩ cid u = true := by
  simp only [findExistingResolution]
  rw [find?_cid_of_map (appendMarkerUpd cid mk)
    (appendMarkerUpd_cid cid mk) cid page.containers]
  obtain ⟨c0, hc0, hcid⟩ := hex
  have hsome : (page.containers.find? (fun c => c.cid == cid)).isSome := by
    rw [List.find?_isSome]
    exact ⟨c0, hc0, by simp [hcid]⟩
  obtain ⟨c1, hc1⟩ := Option.isSome_iff_exists.mp hsome
  rw [hc1]
  have hp1 : (c1.cid == cid) = true :=
    @List.find?_some Container (fun c => c.cid == cid) c1 page.containers hc1
  simp only [Option.map_some']
  rw [appendMarkerUpd_markers, if_pos hp1, List.any_append]
  have hmk : (mk.cls == "uuid-resolver-info" && mk.tooltipAttached
      && jsIncludes ("UUID: " ++ mk.uuid) u) = true := by
    simp [hcls, hatt, hinc]
  simp [hmk]

/-- Containers keep their identity and host text nodes under both insertion
updates (only markers, overlays and the position style change). -/
theorem insertAfterTextNode_preserves_text (page : Page)
    (occ : UuidOccurrence) (m : Marker) :
    (insertAfterTextNode page occ m).containers.map
        (fun c => (c.cid, c.textNodes))
      = page.containers.map (fun c => (c.cid, c.textNodes)) := by
  cases hin : occ.inInput with
  | true =>
    simp only [insertAfterTextNode]
    rw [if_pos hin]
    simp only [List.map_map]
    apply List.map_congr_left
    intro c _
    by_cases h : c.cid = occ.targetCid <;> simp [Function.comp, inputInsertUpd, h]
  | false =>
    simp only [insertAfterTextNode]
    rw [if_neg (bool_false_not_true hin)]
    simp only [List.map_map]
    apply List.map_congr_left
    intro c _
    by_cases h : c.cid = occ.containerId <;>
      simp [Function.comp, appendMarkerUpd, h]

/-- Containers keep their identity and host text nodes under
`injectResolvedName`. -/
theorem injectResolvedName_preserves_text (page : Page)
    (occ : UuidOccurrence) (data : ResolvedEntity) :
    (injectResolvedName page occ data).containers.map
        (fun c => (c.cid, c.textNodes))
      = page.containers.map (fun c => (c.cid, c.textNodes)) := by
  by_cases h : findExistingResolution page occ.containerId occ.uuid = true
  · rw [injectResolvedName_skip page occ data h]
  · simp only [injectResolvedName]
    rw [if_neg h]
    exact insertAfterTextNode_preserves_text page occ _

/-- Containers keep their identity and host text nodes across `enhanceUI`. -/
theorem enhanceUI_preserves_text (resolver : String → String → ResolvedEntity) :
    ∀ (occs : List UuidOccurrence) (st : UIEnhancer) (page : Page),
      (enhanceUI resolver st page occs).2.1.containers.map
          (fun c => (c.cid, c.textNodes))
        = page.containers.map (fun c => (c.cid, c.textNodes)) := by
  intro occs
  induction occs with
  | nil => intro st page; rfl
  | cons occ rest ih =>
    intro st page
    simp only [enhanceUI]
    rw [ih]
    simp only [enhanceStep]
    by_cases h : st.processedElements.contains occ.elemId = true
    · rw [if_pos h]
    · rw [if_neg h]
      exact injectResolvedName_preserves_text page occ _

/-- `removeAllEnhancements` removes exactly the marker spans: afterwards no
element with one of the three enhancement classes remains, while container
identity, host text nodes, reparented body tooltips, overlay wrappers and
the containers' position styles are all left as they were. -/
theorem removeAllEnhancements_clean (st : UIEnhancer) (page : Page) :
    annotationCount (removeAllEnhancements st page).2 = 0
    ∧ (removeAllEnhancements st page).2.containers.map
        (fun c => (c.cid, c.textNodes))
      = page.containers.map (fun c => (c.cid, c.textNodes))
    ∧ (removeAllEnhancements st page).2.bodyTooltipUuids
      = page.bodyTooltipUuids
    ∧ (removeAllEnhancements st page).2.containers.map (fun c => c.overlays)
      = page.containers.map (fun c => c.overlays)
    ∧ (removeAllEnhancements st page).2.containers.map (fun c => c.stylePos)
      = page.containers.map (fun c => c.stylePos) := by
  refine ⟨?_, ?_, rfl, ?_, ?_⟩
  · simp only [annotationCount, markerNodeCount, removeAllEnhancements,
      List.map_map]
    rw [List.sum_eq_zero]
    intro x hx
    obtain ⟨c, _, hc⟩ := List.mem_map.mp hx
    rw [← hc]
    simp only [Function.comp]
    rw [List.length_eq_zero, List.filter_filter, List.filter_eq_nil_iff]
    intro m _
    cases h : enhancementClasses.contains m.cls <;> simp [h]
  · simp only [removeAllEnhancements, List.map_map]
    apply List.map_congr_left
    intro c _
    rfl
  · simp only [removeAllEnhancements, List.map_map]
    apply List.map_congr_left
    intro c _
    rfl
  · simp only [removeAllEnhancements, List.map_map]
    apply List.map_congr_left
    intro c _
    rfl

/-- A page in which every match of every scanned element already carries its
marker stays unchanged under a second pipeline pass: the scan emits nothing,
so `enhanceUI` runs over an empty list. -/
theorem pipelineTwice_page_eq (resolver : String → String → ResolvedEntity)
    (els : List InputEl) (detected : List String) (st : UIEnhancer)
    (page : Page) :
    (pipelineTwice resolver els detected st page).2.2
      = (pipelineOnce resolver els detected st page).2.2
    ∧ (pipelineTwice resolver els detected st page).2.1
      = (pipelineOnce resolver els detected st page).2.1 := by
  have hsat : scanInputElements (scanInputElements detected els).2 els
      = ([], (scanInputElements detected els).2) := by
    apply scanInputElements_saturated
    intro e he hvalid u hu
    exact scanInputElements_covers els detected e he hvalid u hu
  constructor <;>
    simp [pipelineTwice, pipelineOnce, hsat, enhanceUI]

/-- Appending an enhancement-class marker inline to a present container
(well-formed: container ids are duplicate-free) increases the page's marker
count by exactly one. -/
theorem markerNodeCount_append (cid : Nat) (mk : Marker)
    (hcls : enhancementClasses.contains mk.cls = true) :
    ∀ (cs : List Container), (cs.map (fun c => c.cid)).Nodup →
      (∃ c ∈ cs, c.cid = cid) →
      markerNodeCount (cs.map (appendMarkerUpd cid mk))
        = markerNodeCount cs + 1 := by
  intro cs
  induction cs with
  | nil => intro _ hex; obtain ⟨c, hc, _⟩ := hex; cases hc
  | cons c cs ih =>
    intro hnodup hex
    simp only [List.map_cons, List.nodup_cons] at hnodup
    simp only [markerNodeCount, appendMarkerUpd, List.map_cons, List.map_map,
      List.sum_cons, Function.comp_def]
    obtain ⟨c0, hc0, hcid⟩ := hex
    rcases List.mem_cons.mp hc0 with h | h
    · have hcc : (c.cid == cid) = true := by
        subst h; simp [hcid]
      rw [if_pos hcc]
      have htail : ∀ c1 ∈ cs, (c1.cid == cid) = false := by
        intro c1 hc1
        simp only [beq_eq_false_iff_ne, ne_eq]
        intro heq
        apply hnodup.1
        subst h
        rw [hcid, ← heq]
        exact List.mem_map_of_mem (fun c => c.cid) hc1
      have hmap : cs.map (fun c1 =>
          ((if (c1.cid == cid) = true then
              { c1 with markers := c1.markers ++ [mk] } else c1).markers.filter
            (fun m => enhancementClasses.contains m.cls)).length)
          = cs.map (fun c1 => (c1.markers.filter
              (fun m => enhancementClasses.contains m.cls)).length) := by
        apply List.map_congr_left
        intro c1 hc1
        rw [if_neg (bool_false_not_true (htail c1 hc1))]
      rw [hmap]
      simp only [List.filter_append]
      rw [List.filter_cons_of_pos (by simpa using hcls)]
      simp [List.length_append]
      omega
    · have hcc : (c.cid == cid) = false := by
        simp only [beq_eq_false_iff_ne, ne_eq]
        intro heq
        apply hnodup.1
        rw [heq, ← hcid]
        exact List.mem_map_of_mem (fun c => c.cid) h
      rw [if_neg (bool_false_not_true hcc)]
      have := ih hnodup.2 ⟨c0, h, hcid⟩
      simp only [markerNodeCount, appendMarkerUpd, List.map_map,
        Function.comp_def] at this
      omega

/-! ## Annotator claims (claims C7, C8) -/

/-- C7 (corrected, counterexample): the program's own annotation of an
input-field occurrence (uuid in an input of container 1) leaves a
`.uuid-resolver-info` marker whose tooltip now lives under `document.body`.
The scoped search then fails to recognize that marker, so a repeated
annotate call for the same (location, uuid) pair is NOT skipped: a second
marker is inserted (marker count 2), where the claim requires the call to
be skipped via the scoped search. -/
theorem C7_counterexample :
    (enhanceUI (fun u t => ⟨u, "Workflow A", t, none⟩) enhancerInit
        ⟨[⟨1, ["aaaaaaaa-bbbb-cccc-dddd-eeeeeeeeeeee"], "static", [], 0⟩], []⟩
        [⟨"aaaaaaaa-bbbb-cccc-dddd-eeeeeeeeeeee", 1, 1, 1, true, false,
          "script"⟩]).2.1
      = ⟨[⟨1, ["aaaaaaaa-bbbb-cccc-dddd-eeeeeeeeeeee"], "relative",
            [⟨"aaaaaaaa-bbbb-cccc-dddd-eeeeeeeeeeee", "uuid-resolver-info",
              false⟩], 0⟩],
         ["aaaaaaaa-bbbb-cccc-dddd-eeeeeeeeeeee"]⟩
    ∧ findExistingResolution
        ⟨[⟨1, ["aaaaaaaa-bbbb-cccc-dddd-eeeeeeeeeeee"], "relative",
            [⟨"aaaaaaaa-bbbb-cccc-dddd-eeeeeeeeeeee", "uuid-resolver-info",
              false⟩], 0⟩],
         ["aaaaaaaa-bbbb-cccc-dddd-eeeeeeeeeeee"]⟩
        1 "aaaaaaaa-bbbb-cccc-dddd-eeeeeeeeeeee" = false
    ∧ annotationCount (injectResolvedName
        ⟨[⟨1, ["aaaaaaaa-bbbb-cccc-dddd-eeeeeeeeeeee"], "relative",
            [⟨"aaaaaaaa-bbbb-cccc-dddd-eeeeeeeeeeee", "uuid-resolver-info",
              false⟩], 0⟩],
         ["aaaaaaaa-bbbb-cccc-dddd-eeeeeeeeeeee"]⟩
        ⟨"aaaaaaaa-bbbb-cccc-dddd-eeeeeeeeeeee", 1, 1, 1, true, false,
          "script"⟩
        ⟨"aaaaaaaa-bbbb-cccc-dddd-eeeeeeeeeeee", "Workflow A", "script",
          none⟩) = 2 := by
  exact ⟨by decide, by decide, by decide⟩

/-- C7 (amended): running the pipeline a second time over an unchanged DOM
changes neither the page nor the enhancer state (the detector's
per-generation uuid set makes the second scan emit nothing).  The
annotate-level duplicate check is a scoped search of the nearest qualifying
container — not a global document search — but it recognizes only markers
whose tooltip is still attached: when the scoped search recognizes a marker
the annotate call is a no-op; a fresh non-input annotate call (duplicate-free
container ids, the occurrence's container present, resolved data echoing the
uuid) inserts exactly one marker which IS subsequently recognized; an
input-field annotate call inserts a marker that no scoped search ever
recognizes (its outcome on every `findExistingResolution` query is
unchanged), so for input occurrences the skip does not happen. -/
theorem C7_idempotent_scoped_search
    (resolver : String → String → ResolvedEntity) (els : List InputEl)
    (detected : List String) (st : UIEnhancer) (page : Page) :
    ((pipelineTwice resolver els detected st page).2.2
        = (pipelineOnce resolver els detected st page).2.2
      ∧ (pipelineTwice resolver els detected st page).2.1
        = (pipelineOnce resolver els detected st page).2.1)
    ∧ (∀ (p : Page) (occ : UuidOccurrence) (data : ResolvedEntity),
        findExistingResolution p occ.containerId occ.uuid = true →
        injectResolvedName p occ data = p)
    ∧ (∀ (p : Page) (occ : UuidOccurrence) (data : ResolvedEntity),
        occ.inInput = false →
        (p.containers.map (fun c => c.cid)).Nodup →
        (∃ c ∈ p.containers, c.cid = occ.containerId) →
        findExistingResolution p occ.containerId occ.uuid = false →
        data.uuid = occ.uuid →
        annotationCount (injectResolvedName p occ data)
          = annotationCount p + 1
        ∧ findExistingResolution (injectResolvedName p occ data)
            occ.containerId occ.uuid = true)
    ∧ (∀ (p : Page) (occ : UuidOccurrence) (data : ResolvedEntity),
        occ.inInput = true →
        ∀ (cid : Nat) (u : String),
          findExistingResolution (injectResolvedName p occ data) cid u
            = findExistingResolution p cid u) := by
  refine ⟨pipelineTwice_page_eq resolver els detected st page,
    injectResolvedName_skip, ?_, ?_⟩
  · intro p occ data hnin hnodup hex hmiss hdu
    simp only [injectResolvedName]
    rw [if_neg (bool_false_not_true hmiss)]
    simp only [insertAfterTextNode]
    rw [if_neg (bool_false_not_true hnin)]
    constructor
    · exact markerNodeCount_append occ.containerId
        ⟨data.uuid, "uuid-resolver-info", true⟩
        (show enhancementClasses.contains "uuid-resolver-info" = true by
          decide)
        p.containers hnodup hex
    · refine findExisting_append_found p p.bodyTooltipUuids occ.containerId
        ⟨data.uuid, "uuid-resolver-info", true⟩ occ.uuid rfl rfl ?_ hex
      rw [show (⟨data.uuid, "uuid-resolver-info", true⟩ : Marker).uuid
          = occ.uuid from hdu]
      exact jsIncludes_append_self "UUID: " occ.uuid
  · intro p occ data hin cid u
    cases hex : findExistingResolution p occ.containerId occ.uuid with
    | true => simp [injectResolvedName, hex]
    | false =>
      simp only [injectResolvedName]
      rw [if_neg (bool_false_not_true hex)]
      simp only [insertAfterTextNode]
      rw [if_pos hin]
      exact findExisting_input_invisible p _ occ.targetCid occ.angularWrap
        ⟨data.uuid, "uuid-resolver-info", true⟩ cid u

/-- C7 witness: a recognized (tooltip-attached) marker makes annotate a
no-op; a marker in container 1 does not stop a non-input annotate call from
adding a recognized marker in container 2 (the search is scoped, not
global); and an input-field annotate call changes no scoped-search
outcome. -/
theorem C7_witness :
    injectResolvedName
        ⟨[⟨1, ["t"], "static",
            [⟨"aaaaaaaa-bbbb-cccc-dddd-eeeeeeeeeeee", "uuid-resolver-info",
              true⟩], 0⟩], []⟩
        ⟨"aaaaaaaa-bbbb-cccc-dddd-eeeeeeeeeeee", 7, 1, 1, false, false,
          "tag"⟩
        ⟨"aaaaaaaa-bbbb-cccc-dddd-eeeeeeeeeeee", "A", "tag", none⟩
      = ⟨[⟨1, ["t"], "static",
            [⟨"aaaaaaaa-bbbb-cccc-dddd-eeeeeeeeeeee", "uuid-resolver-info",
              true⟩], 0⟩], []⟩
    ∧ (annotationCount (injectResolvedName
          ⟨[⟨1, ["t"], "static",
              [⟨"aaaaaaaa-bbbb-cccc-dddd-eeeeeeeeeeee", "uuid-resolver-info",
                true⟩], 0⟩,
            ⟨2, ["s"], "static", [], 0⟩], []⟩
          ⟨"aaaaaaaa-bbbb-cccc-dddd-eeeeeeeeeeee", 7, 2, 2, false, false,
            "tag"⟩
          ⟨"aaaaaaaa-bbbb-cccc-dddd-eeeeeeeeeeee", "A", "tag", none⟩)
        = annotationCount
          ⟨[⟨1, ["t"], "static",
              [⟨"aaaaaaaa-bbbb-cccc-dddd-eeeeeeeeeeee", "uuid-resolver-info",
                true⟩], 0⟩,
            ⟨2, ["s"], "static", [], 0⟩], []⟩ + 1
      ∧ findExistingResolution (injectResolvedName
          ⟨[⟨1, ["t"], "static",
              [⟨"aaaaaaaa-bbbb-cccc-dddd-eeeeeeeeeeee", "uuid-resolver-info",
                true⟩], 0⟩,
            ⟨2, ["s"], "static", [], 0⟩], []⟩
          ⟨"aaaaaaaa-bbbb-cccc-dddd-eeeeeeeeeeee", 7, 2, 2, false, false,
            "tag"⟩
          ⟨"aaaaaaaa-bbbb-cccc-dddd-eeeeeeeeeeee", "A", "tag", none⟩)
          2 "aaaaaaaa-bbbb-cccc-dddd-eeeeeeeeeeee" = true)
    ∧ findExistingResolution (injectResolvedName
          ⟨[⟨1, ["t"], "static", [], 0⟩], []⟩
          ⟨"aaaaaaaa-bbbb-cccc-dddd-eeeeeeeeeeee", 9, 1, 1, true, false,
            "tag"⟩
          ⟨"aaaaaaaa-bbbb-cccc-dddd-eeeeeeeeeeee", "A", "tag", none⟩)
          1 "aaaaaaaa-bbbb-cccc-dddd-eeeeeeeeeeee"
      = findExistingResolution ⟨[⟨1, ["t"], "static", [], 0⟩], []⟩
          1 "aaaaaaaa-bbbb-cccc-dddd-eeeeeeeeeeee" := by
  refine ⟨?_, ?_, ?_⟩
  · exact (C7_idempotent_scoped_search (fun u t => ⟨u, "A", t, none⟩) [] []
      enhancerInit ⟨[], []⟩).2.1 _ _ _ (by decide)
  · exact (C7_idempotent_scoped_search (fun u t => ⟨u, "A", t, none⟩) [] []
      enhancerInit ⟨[], []⟩).2.2.1 _ _ _ rfl (by decide)
      ⟨⟨2, ["s"], "static", [], 0⟩, by decide, rfl⟩ (by decide) rfl
  · exact (C7_idempotent_scoped_search (fun u t => ⟨u, "A", t, none⟩) [] []
      enhancerInit ⟨[], []⟩).2.2.2 _ _ _ rfl 1
      "aaaaaaaa-bbbb-cccc-dddd-eeeeeeeeeeee"

/-- C8 (corrected, counterexample): annotating one input-field occurrence
(Angular sub-path) and then calling `removeAllEnhancements` does remove the
marker span, but the tooltip the annotator reparented to `document.body` and
the `.uuid-resolver-angular-overlay` wrapper div stay behind: two
extension-inserted nodes remain where the claim requires zero. -/
theorem C8_counterexample :
    annotationCount (removeAllEnhancements
        (enhanceUI (fun u t => ⟨u, "Nightly Cleanup", t, none⟩) enhancerInit
          ⟨[⟨1, ["ff645018-de64-43cb-a80c-d63da9422c82"], "static", [], 0⟩],
           []⟩
          [⟨"ff645018-de64-43cb-a80c-d63da9422c82", 1, 1, 1, true, true,
            "script"⟩]).1
        (enhanceUI (fun u t => ⟨u, "Nightly Cleanup", t, none⟩) enhancerInit
          ⟨[⟨1, ["ff645018-de64-43cb-a80c-d63da9422c82"], "static", [], 0⟩],
           []⟩
          [⟨"ff645018-de64-43cb-a80c-d63da9422c82", 1, 1, 1, true, true,
            "script"⟩]).2.1).2 = 0
    ∧ extensionNodeCount (removeAllEnhancements
        (enhanceUI (fun u t => ⟨u, "Nightly Cleanup", t, none⟩) enhancerInit
          ⟨[⟨1, ["ff645018-de64-43cb-a80c-d63da9422c82"], "static", [], 0⟩],
           []⟩
          [⟨"ff645018-de64-43cb-a80c-d63da9422c82", 1, 1, 1, true, true,
            "script"⟩]).1
        (enhanceUI (fun u t => ⟨u, "Nightly Cleanup", t, none⟩) enhancerInit
          ⟨[⟨1, ["ff645018-de64-43cb-a80c-d63da9422c82"], "static", [], 0⟩],
           []⟩
          [⟨"ff645018-de64-43cb-a80c-d63da9422c82", 1, 1, 1, true, true,
            "script"⟩]).2.1).2 = 2
    ∧ (removeAllEnhancements
        (enhanceUI (fun u t => ⟨u, "Nightly Cleanup", t, none⟩) enhancerInit
          ⟨[⟨1, ["ff645018-de64-43cb-a80c-d63da9422c82"], "static", [], 0⟩],
           []⟩
          [⟨"ff645018-de64-43cb-a80c-d63da9422c82", 1, 1, 1, true, true,
            "script"⟩]).1
        (enhanceUI (fun u t => ⟨u, "Nightly Cleanup", t, none⟩) enhancerInit
          ⟨[⟨1, ["ff645018-de64-43cb-a80c-d63da9422c82"], "static", [], 0⟩],
           []⟩
          [⟨"ff645018-de64-43cb-a80c-d63da9422c82", 1, 1, 1, true, true,
            "script"⟩]).2.1).2.bodyTooltipUuids
      = ["ff645018-de64-43cb-a80c-d63da9422c82"] := by
  exact ⟨by decide, by decide, by decide⟩

/-- C8 (amended): after annotating any set of occurrences,
`removeAllEnhancements` removes exactly the elements carrying one of the
three uuid-resolver marker classes — zero such marker nodes remain — and
every container keeps its identity and its original host text nodes (the
UUID text is never deleted, only supplemented).  But tooltips the input-field
path reparented to `document.body`, the `.uuid-resolver-angular-overlay`
wrapper divs, and the forced position styles are not restored: removal
leaves them exactly as the annotation pass left them. -/
theorem C8_removal_markers_only (resolver : String → String → ResolvedEntity)
    (st : UIEnhancer) (page : Page) (occs : List UuidOccurrence) :
    annotationCount
        (removeAllEnhancements (enhanceUI resolver st page occs).1
          (enhanceUI resolver st page occs).2.1).2 = 0
    ∧ (removeAllEnhancements (enhanceUI resolver st page occs).1
          (enhanceUI resolver st page occs).2.1).2.containers.map
        (fun c => (c.cid, c.textNodes))
      = page.containers.map (fun c => (c.cid, c.textNodes))
    ∧ (removeAllEnhancements (enhanceUI resolver st page occs).1
          (enhanceUI resolver st page occs).2.1).2.bodyTooltipUuids
      = (enhanceUI resolver st page occs).2.1.bodyTooltipUuids
    ∧ (removeAllEnhancements (enhanceUI resolver st page occs).1
          (enhanceUI resolver st page occs).2.1).2.containers.map
        (fun c => c.overlays)
      = (enhanceUI resolver st page occs).2.1.containers.map
        (fun c => c.overlays)
    ∧ (removeAllEnhancements (enhanceUI resolver st page occs).1
          (enhanceUI resolver st page occs).2.1).2.containers.map
        (fun c => c.stylePos)
      = (enhanceUI resolver st page occs).2.1.containers.map
        (fun c => c.stylePos) := by
  refine ⟨(removeAllEnhancements_clean _ _).1, ?_,
    (removeAllEnhancements_clean _ _).2.2.1,
    (removeAllEnhancements_clean _ _).2.2.2.1,
    (removeAllEnhancements_clean _ _).2.2.2.2⟩
  rw [(removeAllEnhancements_clean _ _).2.1]
  exact enhanceUI_preserves_text resolver occs st page

/-! ## Settings gating (claim C9) -/

/-- C9 (corrected, counterexample): with the extension enabled but the
per-type setting `entityTypes.script = false` persisted by the popup, an
occurrence classified as `script` is detected — and resolution IS invoked
for it: the run's resolve-call log contains the (uuid, script) pair, where
the claim requires it to be absent. -/
theorem C9_counterexample :
    (contentScriptInit
        ⟨true, [("tag", true), ("application", true), ("profile", true),
                ("script", false), ("product", true),
                ("organizationGroup", true)], 300000⟩
        (fun u t => ⟨u, "Nightly Cleanup", t, none⟩)
        [⟨1, "ff645018-de64-43cb-a80c-d63da9422c82", false, true, 1, 1,
          false, false, some "Script UUID"⟩]
        [] enhancerInit
        ⟨[⟨1, ["ff645018-de64-43cb-a80c-d63da9422c82"], "static", [], 0⟩], []⟩).detected.map
        (fun o => o.entityType) = ["script"]
    ∧ (contentScriptInit
        ⟨true, [("tag", true), ("application", true), ("profile", true),
                ("script", false), ("product", true),
                ("organizationGroup", true)], 300000⟩
        (fun u t => ⟨u, "Nightly Cleanup", t, none⟩)
        [⟨1, "ff645018-de64-43cb-a80c-d63da9422c82", false, true, 1, 1,
          false, false, some "Script UUID"⟩]
        [] enhancerInit
        ⟨[⟨1, ["ff645018-de64-43cb-a80c-d63da9422c82"], "static", [], 0⟩], []⟩).calls
      = [("ff645018-de64-43cb-a80c-d63da9422c82", "script")] := by
  exact ⟨by decide, by decide⟩

/-- C9 (amended): when `enabled` is false the content script returns before
any scanning — nothing is detected, the page is untouched, no resolution is
invoked; the per-type `entityTypes` settings are never consulted: two
settings values agreeing on `enabled` produce identical runs, so detection
and resolution both proceed for occurrences of disabled types. -/
theorem C9_enabled_gate (s1 s2 : Settings)
    (resolver : String → String → ResolvedEntity) (els : List InputEl)
    (detected : List String) (st : UIEnhancer) (page : Page) :
    (s1.enabled = false →
      contentScriptInit s1 resolver els detected st page
        = ⟨[], page, [], detected, st⟩)
    ∧ (s1.enabled = s2.enabled →
      contentScriptInit s1 resolver els detected st page
        = contentScriptInit s2 resolver els detected st page) := by
  constructor
  · intro h
    simp [contentScriptInit, h]
  · intro h
    simp only [contentScriptInit, h]

/-- C9 witness: a disabled run does nothing; flipping only
`entityTypes.script` changes nothing about an enabled run. -/
theorem C9_witness :
    contentScriptInit ⟨false, [("script", false)], 300000⟩
        (fun u t => ⟨u, "Nightly Cleanup", t, none⟩)
        [⟨1, "ff645018-de64-43cb-a80c-d63da9422c82", false, true, 1, 1,
          false, false, some "Script UUID"⟩] [] enhancerInit ⟨[], []⟩
      = ⟨[], ⟨[], []⟩, [], [], enhancerInit⟩
    ∧ contentScriptInit ⟨true, [("script", false)], 300000⟩
        (fun u t => ⟨u, "Nightly Cleanup", t, none⟩)
        [⟨1, "ff645018-de64-43cb-a80c-d63da9422c82", false, true, 1, 1,
          false, false, some "Script UUID"⟩] [] enhancerInit ⟨[], []⟩
      = contentScriptInit ⟨true, [("script", true)], 300000⟩
        (fun u t => ⟨u, "Nightly Cleanup", t, none⟩)
        [⟨1, "ff645018-de64-43cb-a80c-d63da9422c82", false, true, 1, 1,
          false, false, some "Script UUID"⟩] [] enhancerInit ⟨[], []⟩ := by
  constructor
  · exact (C9_enabled_gate ⟨false, [("script", false)], 300000⟩
      ⟨false, [("script", false)], 300000⟩ _ _ _ _ _).1 rfl
  · exact (C9_enabled_gate ⟨true, [("script", false)], 300000⟩
      ⟨true, [("script", true)], 300000⟩ _ _ _ _ _).2 rfl

/-! ## Statistics lemmas (claim C10) -/

/-- Bumping a type counter adds exactly one to the total tally. -/
theorem bumpType_sum : ∀ (m : List (String × Nat)) (k : String),
    byTypeSum (bumpType m k) = byTypeSum m + 1 := by
  intro m
  induction m with
  | nil => intro k; rfl
  | cons p m ih =>
    intro k
    obtain ⟨k', v⟩ := p
    cases hc : (k' == k) with
    | true =>
      simp only [bumpType]
      rw [if_pos hc]
      simp [byTypeSum]
      omega
    | false =>
      simp only [bumpType]
      rw [if_neg (bool_false_not_true hc)]
      simp only [byTypeSum, List.map_cons, List.sum_cons] at ih ⊢
      rw [ih k]
      omega

/-- Folding the per-entry bump over a value list adds its length. -/
theorem byTypeSum_foldl :
    ∀ (l : List (String × ResolvedEntity)) (acc : List (String × Nat)),
      byTypeSum (l.foldl (fun a p => bumpType a p.2.type) acc)
        = byTypeSum acc + l.length := by
  intro l
  induction l with
  | nil => intro acc; simp
  | cons p l ih =>
    intro acc
    simp only [List.foldl_cons, List.length_cons]
    rw [ih, bumpType_sum]
    omega

/-- A `Map.set` adds the key if it was absent, else leaves the key list as is
(membership view). -/
theorem jsMapSet_keys_mem {α : Type} :
    ∀ (m : List (String × α)) (k : String) (v : α) (u : String),
      (u ∈ (jsMapSet m k v).map Prod.fst ↔ u ∈ m.map Prod.fst ∨ u = k) := by
  intro m
  induction m with
  | nil =>
    intro k v u
    simp [jsMapSet, eq_comm]
  | cons p m ih =>
    intro k v u
    obtain ⟨k', v'⟩ := p
    cases hc : (k' == k) with
    | true =>
      have hk : k' = k := by simpa using hc
      simp only [jsMapSet]
      rw [if_pos hc]
      subst hk
      simp only [List.map_cons, List.mem_cons]
      constructor
      · rintro (h | h)
        · exact Or.inr h
        · exact Or.inl (Or.inr h)
      · rintro ((h | h) | h)
        · exact Or.inl h
        · exact Or.inr h
        · exact Or.inl h
    | false =>
      simp only [jsMapSet]
      rw [if_neg (bool_false_not_true hc)]
      simp only [List.map_cons, List.mem_cons]
      rw [ih k v u]
      tauto

/-- A `Map.set` preserves key uniqueness. -/
theorem jsMapSet_keys_nodup {α : Type} :
    ∀ (m : List (String × α)) (k : String) (v : α),
      (m.map Prod.fst).Nodup → ((jsMapSet m k v).map Prod.fst).Nodup := by
  intro m
  induction m with
  | nil => intro k v _; simp [jsMapSet]
  | cons p m ih =>
    intro k v hnd
    obtain ⟨k', v'⟩ := p
    simp only [List.map_cons, List.nodup_cons] at hnd
    cases hc : (k' == k) with
    | true =>
      have hk : k' = k := by simpa using hc
      simp only [jsMapSet]
      rw [if_pos hc]
      simp only [List.map_cons, List.nodup_cons]
      exact ⟨hk ▸ hnd.1, hnd.2⟩
    | false =>
      have hk : k' ≠ k := by simpa using hc
      simp only [jsMapSet]
      rw [if_neg (bool_false_not_true hc)]
      simp only [List.map_cons, List.nodup_cons]
      refine ⟨?_, ih k v hnd.2⟩
      intro hmem
      rcases (jsMapSet_keys_mem m k v k').mp hmem with h | h
      · exact hnd.1 h
      · exact hk h

/-- An already-processed element makes `enhanceStep` a no-op. -/
theorem enhanceStep_skip (resolver : String → String → ResolvedEntity)
    (st : UIEnhancer) (page : Page) (occ : UuidOccurrence)
    (hp : st.processedElements.contains occ.elemId = true) :
    enhanceStep resolver st page occ = (st, page, []) := by
  simp only [enhanceStep]
  rw [if_pos hp]

/-- A fresh element resolves, annotates, and is recorded. -/
theorem enhanceStep_fresh (resolver : String → String → ResolvedEntity)
    (st : UIEnhancer) (page : Page) (occ : UuidOccurrence)
    (hp : st.processedElements.contains occ.elemId = false) :
    enhanceStep resolver st page occ
      = ({ processedElements := st.processedElements ++ [occ.elemId],
           resolvedUUIDs := jsMapSet st.resolvedUUIDs occ.uuid
             (resolver occ.uuid occ.entityType) },
         injectResolvedName page occ (resolver occ.uuid occ.entityType),
         [(occ.uuid, occ.entityType)]) := by
  simp only [enhanceStep]
  rw [if_neg (bool_false_not_true hp)]

/-- Running `enhanceUI` preserves uniqueness of the `resolvedUUIDs` keys. -/
theorem enhanceUI_keys_nodup (resolver : String → String → ResolvedEntity) :
    ∀ (occs : List UuidOccurrence) (st : UIEnhancer) (page : Page),
      (st.resolvedUUIDs.map Prod.fst).Nodup →
      ((enhanceUI resolver st page occs).1.resolvedUUIDs.map Prod.fst).Nodup := by
  intro occs
  induction occs with
  | nil => intro st page h; exact h
  | cons occ rest ih =>
    intro st page h
    cases hp : st.processedElements.contains occ.elemId with
    | true =>
      simp only [enhanceUI, enhanceStep_skip resolver st page occ hp]
      exact ih st page h
    | false =>
      simp only [enhanceUI, enhanceStep_fresh resolver st page occ hp]
      exact ih _ _ (jsMapSet_keys_nodup st.resolvedUUIDs occ.uuid _ h)

/-- The `resolvedUUIDs` keys after `enhanceUI` are exactly the old keys plus
the uuids of the run's resolve invocations. -/
theorem enhanceUI_keys_mem (resolver : String → String → ResolvedEntity) :
    ∀ (occs : List UuidOccurrence) (st : UIEnhancer) (page : Page)
      (u : String),
      u ∈ (enhanceUI resolver st page occs).1.resolvedUUIDs.map Prod.fst
      ↔ u ∈ st.resolvedUUIDs.map Prod.fst
        ∨ u ∈ ((enhanceUI resolver st page occs).2.2).map Prod.fst := by
  intro occs
  induction occs with
  | nil => intro st page u; simp [enhanceUI]
  | cons occ rest ih =>
    intro st page u
    cases hp : st.processedElements.contains occ.elemId with
    | true =>
      simp only [enhanceUI, enhanceStep_skip resolver st page occ hp,
        List.nil_append]
      exact ih st page u
    | false =>
      simp only [enhanceUI, enhanceStep_fresh resolver st page occ hp,
        List.cons_append, List.nil_append, List.map_cons, List.mem_cons]
      rw [ih _ _ u, jsMapSet_keys_mem]
      tauto

/-- Running `runBatches` preserves uniqueness of the `resolvedUUIDs` keys. -/
theorem runBatches_keys_nodup (resolver : String → String → ResolvedEntity) :
    ∀ (batches : List (List UuidOccurrence)) (st : UIEnhancer) (page : Page),
      (st.resolvedUUIDs.map Prod.fst).Nodup →
      ((runBatches resolver batches st page).1.resolvedUUIDs.map
        Prod.fst).Nodup := by
  intro batches
  induction batches with
  | nil => intro st page h; exact h
  | cons b bs ih =>
    intro st page h
    simp only [runBatches]
    exact ih _ _ (enhanceUI_keys_nodup resolver b st page h)

/-- The `resolvedUUIDs` keys after any batch sequence are exactly the old
keys plus the uuids resolution was invoked for. -/
theorem runBatches_keys_mem (resolver : String → String → ResolvedEntity) :
    ∀ (batches : List (List UuidOccurrence)) (st : UIEnhancer) (page : Page)
      (u : String),
      u ∈ (runBatches resolver batches st page).1.resolvedUUIDs.map Prod.fst
      ↔ u ∈ st.resolvedUUIDs.map Prod.fst
        ∨ u ∈ ((runBatches resolver batches st page).2.2).map Prod.fst := by
  intro batches
  induction batches with
  | nil => intro st page u; simp [runBatches]
  | cons b bs ih =>
    intro st page u
    simp only [runBatches, List.map_append, List.mem_append]
    rw [ih _ _ u, enhanceUI_keys_mem]
    tauto

/-! ## Statistics claim (claim C10) -/

/-- C10 (confirmed): after any sequence of `enhanceUI` runs against one
`UIEnhancer` instance, `getStatistics().total` equals the number of distinct
uuids resolution was invoked for (repeat invocations of the same uuid are
counted once, because `resolvedUUIDs` is keyed by uuid), and the per-type
counts in `byType` sum to that total. -/
theorem C10_statistics_consistent (resolver : String → String → ResolvedEntity)
    (batches : List (List UuidOccurrence)) (page : Page) :
    (getStatistics (runBatches resolver batches enhancerInit page).1).total
      = (((runBatches resolver batches enhancerInit page).2.2).map
          Prod.fst).dedup.length
    ∧ byTypeSum (getStatistics
          (runBatches resolver batches enhancerInit page).1).byType
      = (getStatistics (runBatches resolver batches enhancerInit page).1).total
    := by
  constructor
  · have hnd : ((runBatches resolver batches enhancerInit page).1.resolvedUUIDs.map
        Prod.fst).Nodup :=
      runBatches_keys_nodup resolver batches enhancerInit page
        (by simp [enhancerInit])
    have hmem : ∀ u,
        u ∈ (runBatches resolver batches enhancerInit page).1.resolvedUUIDs.map
          Prod.fst
        ↔ u ∈ (((runBatches resolver batches enhancerInit page).2.2).map
            Prod.fst) := by
      intro u
      rw [runBatches_keys_mem]
      simp [enhancerInit]
    have h1 : (getStatistics
        (runBatches resolver batches enhancerInit page).1).total
        = ((runBatches resolver batches enhancerInit page).1.resolvedUUIDs.map
            Prod.fst).length := by
      simp [getStatistics]
    rw [h1, ← List.toFinset_card_of_nodup hnd,
      ← List.toFinset_card_of_nodup
        (List.nodup_dedup (((runBatches resolver batches enhancerInit
          page).2.2).map Prod.fst))]
    congr 1
    ext u
    simp only [List.mem_toFinset, List.mem_dedup]
    exact hmem u
  · simp only [getStatistics]
    rw [byTypeSum_foldl]
    simp [byTypeSum]

end UUIDResolver
